import Mathlib

set_option maxRecDepth 8000

/-!
Verification development for the Douyin_scrape repository.

The repository consists of three Python scripts:
  src/douyin_video_analysis.py   (feed collector + RENDER_DATA locator/normalizer)
  src/scrape_from_url_excel.py   (Excel-driven retry orchestrator + row reconciliation)
  src/scrape_from_Jingxuan.py    (count-text decoder, DOM scraper, narrow JSON locator)

This file gives a shallow embedding of the pure core of those scripts.
Python JSON values are modelled by the inductive type Json below; Python
exceptions that escape a function are modelled by Option/Except results
(none or .error meaning the call raises), and Python None is Json.null.
Python ints are arbitrary precision and modelled by Int. Python floats are
modelled by exact scaled decimals m * 10^e clamped at the IEEE double
range; this agrees with CPython on every concrete input appearing in a
theorem below, and the clamp captures the overflow-to-infinity behaviour
of float() and of float multiplication that the error claims depend on.
String operations are implemented over character lists so that every
definition evaluates by kernel reduction.
-/

/-- A Python/JSON value: None, bool, int, str, list, dict (insertion-ordered). -/
inductive Json where
  | null
  | bool (b : Bool)
  | num (n : Int)
  | str (s : String)
  | arr (xs : List Json)
  | obj (kvs : List (String × Json))
deriving Repr

/-- Python truthiness of a value: None/False/0/empty string/empty container are falsy. -/
def Json.truthy : Json → Bool
  | .null => false
  | .bool b => b
  | .num n => n != 0
  | .str s => !(s == "")
  | .arr xs => !xs.isEmpty
  | .obj kvs => !kvs.isEmpty

/-- Python dict lookup d.get(k): the value of the first field named k, if any. -/
def jsonGet (kvs : List (String × Json)) (k : String) : Option Json :=
  (kvs.find? (fun kv => kv.1 == k)).map (fun kv => kv.2)

/-- Python membership test k in d. -/
def hasKeyF (kvs : List (String × Json)) (k : String) : Bool :=
  kvs.any (fun kv => kv.1 == k)

/-- Python chain a or b or ... or dflt over optional lookups: the first present,
truthy value, else the final default (an "or" chain returns its last operand
when every earlier operand is falsy, and a missing key yields falsy None). -/
def firstTruthyD (opts : List (Option Json)) (dflt : Json) : Json :=
  match opts with
  | [] => dflt
  | some v :: rest => if v.truthy then v else firstTruthyD rest dflt
  | none :: rest => firstTruthyD rest dflt

mutual
/-- Python repr of a value (scalars exactly; containers in the usual bracketed form). -/
def pyRepr : Json → String
  | .null => "None"
  | .bool b => if b then "True" else "False"
  | .num n => toString n
  | .str s => "'" ++ s ++ "'"
  | .arr xs => "[" ++ pyReprL xs ++ "]"
  | .obj kvs => "\x7b" ++ pyReprF kvs ++ "\x7d"

def pyReprL : List Json → String
  | [] => ""
  | [j] => pyRepr j
  | j :: rest => pyRepr j ++ ", " ++ pyReprL rest

def pyReprF : List (String × Json) → String
  | [] => ""
  | [(k, v)] => "'" ++ k ++ "': " ++ pyRepr v
  | (k, v) :: rest => "'" ++ k ++ "': " ++ pyRepr v ++ ", " ++ pyReprF rest
end

/-- Python str() of a value: a string is itself, anything else is its repr
(for the scalar values that actually occur this matches CPython exactly). -/
def pyStr : Json → String
  | .str s => s
  | j => pyRepr j

/-- Whitespace for Python str.strip(), covering the characters that occur. -/
def isWS (c : Char) : Bool := c.isWhitespace

/-- Python str.strip() on a character list. -/
def trimChars (cs : List Char) : List Char :=
  ((cs.dropWhile isWS).reverse.dropWhile isWS).reverse

/-- Python str.strip() producing a string again. -/
def pyStrip (s : String) : String := String.mk (trimChars s.toList)

/-- ASCII lower-casing of one character (the inputs that matter are ASCII). -/
def lowerChar (c : Char) : Char :=
  if 65 ≤ c.toNat && c.toNat ≤ 90 then Char.ofNat (c.toNat + 32) else c

/-- Leading decimal digits of a character list, and the remainder. -/
def takeDigits : List Char → List Char × List Char
  | c :: cs =>
      if c.isDigit then
        let (ds, r) := takeDigits cs
        (c :: ds, r)
      else ([], c :: cs)
  | [] => ([], [])

/-- Numeric value of a digit list. -/
def digitsVal (ds : List Char) : Nat :=
  ds.foldl (fun a c => a * 10 + (c.toNat - '0'.toNat)) 0

/-- Python int(s) on stripped characters: an optional sign then decimal
digits; none models the ValueError raised otherwise. Digit-group
underscores and non-ASCII digits are not modelled. -/
def pyIntChars : List Char → Option Int
  | [] => none
  | '+' :: ds =>
      if !ds.isEmpty && ds.all Char.isDigit then some (digitsVal ds : Int) else none
  | '-' :: ds =>
      if !ds.isEmpty && ds.all Char.isDigit then some (-(digitsVal ds : Int)) else none
  | ds =>
      if ds.all Char.isDigit then some (digitsVal ds : Int) else none

/-- Python int(s) on a string (int() strips surrounding whitespace itself). -/
def pyIntOfStr (s : String) : Option Int :=
  pyIntChars (trimChars s.toList)

/-- Python int(x) on a value: ints are themselves, bools are 0/1, strings are
parsed; none models the TypeError/ValueError raised on anything else. -/
def pyInt : Json → Option Int
  | .num n => some n
  | .bool b => some (if b then 1 else 0)
  | .str s => pyIntOfStr s
  | _ => none

/-- A Python float: an exact finite scaled decimal m * 10^e, an infinity, or nan. -/
inductive PFloat where
  | finite (m : Int) (e : Int)
  | pinf
  | ninf
  | nan
deriving Repr, DecidableEq

/-- The magnitude of the largest finite IEEE double, exactly. -/
def maxDoubleN : Nat := (2 ^ 53 - 1) * 2 ^ 971

/-- Whether the exact value m * 10^e lies outside the finite double range. -/
def decOverflow (m e : Int) : Bool :=
  if 0 ≤ e then maxDoubleN < m.natAbs * 10 ^ e.toNat
  else maxDoubleN * 10 ^ (-e).toNat < m.natAbs

/-- Clamp an exact scaled decimal into the double range, overflowing to an
infinity of the same sign as IEEE arithmetic does. -/
def floatClamp (m e : Int) : PFloat :=
  if decOverflow m e then (if 0 ≤ m then .pinf else .ninf) else .finite m e

/-- Truncation toward zero of m * 10^e, as Python int() applied to a finite float. -/
def decTrunc (m e : Int) : Int :=
  if 0 ≤ e then m * ((10 ^ e.toNat : Nat) : Int)
  else m.tdiv ((10 ^ (-e).toNat : Nat) : Int)

/-- Digits, an optional fractional part, an optional exponent: the decimal
part of Python's float() grammar, evaluated exactly as digits * 10^e. -/
def parseDecimal (cs : List Char) : Option (Nat × Int) :=
  let (ip, r1) := takeDigits cs
  let (fp, r2) :=
    match r1 with
    | '.' :: r => takeDigits r
    | _ => ([], r1)
  if ip.isEmpty && fp.isEmpty then none
  else
    let mant : Nat := digitsVal (ip ++ fp)
    match r2 with
    | [] => some (mant, -(fp.length : Int))
    | 'e' :: r =>
        let (esgn, r') : Int × List Char :=
          match r with
          | '+' :: q => (1, q)
          | '-' :: q => (-1, q)
          | q => (1, q)
        let (ed, r'') := takeDigits r'
        if ed.isEmpty || !r''.isEmpty then none
        else some (mant, esgn * (digitsVal ed : Int) - (fp.length : Int))
    | _ => none

/-- Python float(s): whitespace-stripped, case-insensitive, accepts inf,
infinity and nan, otherwise the decimal grammar with literal overflow going
to an infinity; none models ValueError. -/
def pyFloatOfStr (s : String) : Option PFloat :=
  let t := (trimChars s.toList).map lowerChar
  let (sgn, u) : Int × List Char :=
    match t with
    | '+' :: r => (1, r)
    | '-' :: r => (-1, r)
    | r => (1, r)
  if u == "inf".toList || u == "infinity".toList then
    some (if sgn == 1 then .pinf else .ninf)
  else if u == "nan".toList then some .nan
  else
    match parseDecimal u with
    | some (m, e) => some (floatClamp (sgn * (m : Int)) e)
    | none => none

/-- The sentinel strings parse_count_text maps to zero. -/
def countSentinels : List (List Char) :=
  ["点赞".toList, "评论".toList, "分享".toList, "收藏".toList, "-".toList, "—".toList]

/-- The 万/w magnitude branch of parse_count_text: val = float(num_part);
return int(val * 10000), with only ValueError caught. A nan gives 0 (its
int() raises ValueError, which is caught); an infinite or overflowing
product raises OverflowError, which escapes: modelled as none. -/
def suffixBranch (numPart : List Char) : Option Int :=
  match pyFloatOfStr (String.mk numPart) with
  | none => some 0
  | some .nan => some 0
  | some .pinf => none
  | some .ninf => none
  | some (.finite m e) =>
      match floatClamp m (e + 4) with
      | .finite m' e' => some (decTrunc m' e')
      | _ => none

/-- First match of the pattern digits-then-optional-dot-digits in a character
list: the integer digits and the (possibly empty) fractional digits. -/
def firstNumMatch : List Char → Option (List Char × List Char)
  | [] => none
  | c :: rest =>
      if c.isDigit then
        let (ds, r1) := takeDigits (c :: rest)
        match r1 with
        | '.' :: r2 =>
            let (fs, _) := takeDigits r2
            if fs.isEmpty then some (ds, []) else some (ds, fs)
        | _ => some (ds, [])
      else firstNumMatch rest

/-- The last-resort branch of parse_count_text: extract the first numeric
substring; a fractional match goes through int(float(...)), whose float can
overflow to infinity and raise an uncaught OverflowError (none); no match
gives 0. -/
def fallbackBranch (s : List Char) : Option Int :=
  match firstNumMatch s with
  | none => some 0
  | some (ds, fs) =>
      if fs.isEmpty then some (digitsVal ds : Int)
      else
        match floatClamp (digitsVal (ds ++ fs) : Int) (-(fs.length : Int)) with
        | .finite m e => some (decTrunc m e)
        | _ => none

/-- The strip-and-remove-separators prefix of parse_count_text: s.strip()
then removal of every half-width and full-width comma. -/
def cleanCount (text : String) : List Char :=
  (trimChars text.toList).filter (fun c => c != ',' && c != '，')

/-- parse_count_text from scrape_from_Jingxuan.py: decode a human-readable
count; some n is a returned value, none models an exception escaping the
function (only ValueError is caught inside it). -/
def parse_count_text (text : String) : Option Int :=
  if text == "" then some 0
  else if cleanCount text ∈ countSentinels then some 0
  else if (cleanCount text).getLast? == some '万' ||
      ((cleanCount text).map lowerChar).getLast? == some 'w' then
    suffixBranch (cleanCount text).dropLast
  else
    match pyIntChars (cleanCount text) with
    | some n => some n
    | none => fallbackBranch (cleanCount text)

/-!
Embedding of src/douyin_video_analysis.py: the regex id extraction
(VIDEO_ID_RE / MODAL_ID_RE with collect_ids_from_html), the scrolling
collection loop (scroll_and_collect_on_page), the recursive node walker
(walk_find_aweme_nodes) and the summary parser (parse_aweme_from_render_data),
and the per-item main loop. The mutable Python set of identifiers is
modelled as a duplicate-free list in insertion order (only add, length and
membership are used on it, so this is faithful).
-/

/-- Whether pat is an initial segment of s. -/
def startsWithChars : List Char → List Char → Bool
  | [], _ => true
  | _ :: _, [] => false
  | p :: ps, c :: cs => p == c && startsWithChars ps cs

/-- One left-to-right non-overlapping scan for pattern-then-10-to-20-digits,
the semantics of re.findall with the two id patterns: at a match the greedy
digit run is capped at 20 digits and scanning resumes after the match. The
fuel argument only bounds the recursion and is set to the text length. -/
def idScan (pat : List Char) : Nat → List Char → List String
  | 0, _ => []
  | _, [] => []
  | fuel + 1, c :: rest =>
      if startsWithChars pat (c :: rest) then
        let afterPat := (c :: rest).drop pat.length
        let run := (takeDigits afterPat).1
        if 10 ≤ run.length then
          String.mk (run.take 20) :: idScan pat fuel (afterPat.drop (run.take 20).length)
        else idScan pat fuel rest
      else idScan pat fuel rest

/-- All matches of /video/(digits) in a page source. -/
def findVideoIds (html : String) : List String :=
  idScan "/video/".toList html.toList.length html.toList

/-- All matches of modal_id=(digits) in a page source. -/
def findModalIds (html : String) : List String :=
  idScan "modal_id=".toList html.toList.length html.toList

/-- Python set.add on the insertion-ordered duplicate-free list model. -/
def setAdd (g : List String) (v : String) : List String :=
  if v ∈ g then g else g ++ [v]

/-- The insertion loop of collect_ids_from_html: add each id until the
running set reaches max_total, then stop. -/
def addUpTo (ids : List String) (g : List String) (cap : Nat) : List String :=
  match ids with
  | [] => g
  | v :: rest => if cap ≤ g.length then g else addUpTo rest (setAdd g v) cap

/-- collect_ids_from_html: extract both pattern families, insert up to the
cap, and return the updated set with the number of newly added ids. -/
def collect_ids_from_html (html : String) (g : List String) (cap : Nat) :
    List String × Nat :=
  let ids := findVideoIds html ++ findModalIds html
  let g' := addUpTo ids g cap
  (g', g'.length - g.length)

/-- The while loop of scroll_and_collect_on_page, driven by the successive
page snapshots the browser would produce: returns the final set and the
number of scans performed. A zero-yield scan with no strike yet pauses,
scrolls and rescans; a second consecutive zero-yield scan stops the page;
reaching the cap stops the page. -/
def scroll_and_collect_on_page :
    List String → List String → Nat → Nat → List String × Nat
  | [], g, _, _ => (g, 0)
  | h :: rest, g, cap, noNewRounds =>
      if g.length < cap then
        let r := collect_ids_from_html h g cap
        if r.2 = 0 then
          if noNewRounds = 0 then
            let t := scroll_and_collect_on_page rest r.1 cap 1
            (t.1, t.2 + 1)
          else (r.1, 1)
        else
          if cap ≤ r.1.length then (r.1, 1)
          else
            let t := scroll_and_collect_on_page rest r.1 cap 0
            (t.1, t.2 + 1)
      else (g, 0)

/-- The identifier-key variants walk_find_aweme_nodes looks for. -/
def idKeys : List String := ["awemeId", "awemeIdStr", "aweme_id", "group_id"]

/-- The statistics-container keys walk_find_aweme_nodes looks for. -/
def statsKeys : List String := ["stats", "statistics"]

/-- Whether a mapping qualifies as a candidate aweme node: at least one
identifier key and at least one statistics key. -/
def isAwemeFields (kvs : List (String × Json)) : Bool :=
  idKeys.any (hasKeyF kvs) && statsKeys.any (hasKeyF kvs)

/-- The qualifying-node predicate on values: only mappings qualify. -/
def isAwemeNode : Json → Bool
  | .obj kvs => isAwemeFields kvs
  | _ => false

mutual
/-- walk_find_aweme_nodes: collect every qualifying mapping, the parent
before its children, mapping values in field order, then sequence elements
in index order; non-mapping non-sequence leaves contribute nothing. -/
def walkJ : Json → List Json
  | .null => []
  | .bool _ => []
  | .num _ => []
  | .str _ => []
  | .arr xs => walkL xs
  | .obj kvs => (if isAwemeFields kvs then [Json.obj kvs] else []) ++ walkF kvs

def walkL : List Json → List Json
  | [] => []
  | j :: rest => walkJ j ++ walkL rest

def walkF : List (String × Json) → List Json
  | [] => []
  | (_, v) :: rest => walkJ v ++ walkF rest
end

mutual
/-- Modelled from the spec: the full preorder traversal of a candidate tree,
parent before children, mapping values in natural order then sequence
elements in index order; the locator claims are stated against its
qualifying-node filtering. -/
def preorderJ : Json → List Json
  | .null => [Json.null]
  | .bool b => [Json.bool b]
  | .num n => [Json.num n]
  | .str s => [Json.str s]
  | .arr xs => Json.arr xs :: preorderL xs
  | .obj kvs => Json.obj kvs :: preorderF kvs

def preorderL : List Json → List Json
  | [] => []
  | j :: rest => preorderJ j ++ preorderL rest

def preorderF : List (String × Json) → List Json
  | [] => []
  | (_, v) :: rest => preorderJ v ++ preorderF rest
end

/-- Dict lookup on a value known to be a mapping (candidate nodes always
are; on a non-mapping this models the attribute error as a missing key). -/
def objGet (j : Json) (k : String) : Option Json :=
  match j with
  | .obj kvs => jsonGet kvs k
  | _ => none

/-- get_id from parse_aweme_from_render_data: the first truthy value among
the identifier-key variants, via str(), with an empty result becoming None. -/
def getIdNode (d : Json) : Option String :=
  let v := firstTruthyD
    [objGet d "awemeId", objGet d "awemeIdStr", objGet d "aweme_id", objGet d "group_id"]
    (Json.str "")
  let s := pyStr v
  if s == "" then none else some s

/-- The candidate-selection logic of parse_aweme_from_render_data: walk the
tree; with a target id prefer the first candidate whose resolved id equals
it; otherwise, and when no candidate matches, take the first candidate;
None only when there is no candidate at all. -/
def chooseCandidate (data : Json) (targetId : Option String) : Option Json :=
  match walkJ data with
  | [] => none
  | c :: cs =>
      match targetId with
      | none => some c
      | some t =>
          match (c :: cs).find? (fun d => getIdNode d == some t) with
          | some m => some m
          | none => some c

/-- The canonical summary record parse_aweme_from_render_data builds. -/
structure AwemeInfo where
  aweme_id : String
  title : Json
  author : Json
  digg_count : Int
  comment_count : Int
  share_count : Int
  collect_count : Int
  play_count : Int
deriving Repr

/-- int(x) where a failure is the uncaught ValueError/TypeError of the source. -/
def pyIntE (j : Json) : Except Unit Int :=
  match pyInt j with
  | some n => Except.ok n
  | none => Except.error ()

/-- One statistics field of parse_aweme_from_render_data:
int(stats.get(k1) or stats.get(k2) or 0), where a get on a non-mapping
stats value raises (AttributeError, uncaught). -/
def statCount (stats : Json) (k1 k2 : String) : Except Unit Int :=
  match stats with
  | .obj kvs => pyIntE (firstTruthyD [jsonGet kvs k1, jsonGet kvs k2] (Json.num 0))
  | _ => Except.error ()

/-- parse_aweme_from_render_data: choose a candidate node and normalize it.
Except.error models an exception escaping the function (int() on a
malformed string statistic, or a get on a truthy non-mapping stats value);
none models the Python None return when no candidate exists. -/
def parse_aweme_from_render_data (data : Json) (targetId : Option String) :
    Except Unit (Option AwemeInfo) :=
  match chooseCandidate data targetId with
  | none => Except.ok none
  | some chosen =>
      let vid : String :=
        match getIdNode chosen with
        | some s => s
        | none => match targetId with | some t => t | none => ""
      let title := firstTruthyD
        [objGet chosen "desc", objGet chosen "title", objGet chosen "awemeDesc"]
        (Json.str "")
      let author : Json :=
        match objGet chosen "author" with
        | some (.obj akvs) =>
            firstTruthyD [jsonGet akvs "nickname", jsonGet akvs "nicknameName"]
              (Json.str "")
        | _ => Json.str ""
      let stats := firstTruthyD [objGet chosen "stats", objGet chosen "statistics"]
        (Json.obj [])
      match statCount stats "diggCount" "digg_count",
            statCount stats "commentCount" "comment_count",
            statCount stats "shareCount" "share_count",
            statCount stats "collectCount" "collect_count",
            statCount stats "playCount" "play_count" with
      | .ok digg, .ok comment, .ok share, .ok collect, .ok play =>
          Except.ok (some ⟨vid, title, author, digg, comment, share, collect, play⟩)
      | _, _, _, _, _ => Except.error ()

/-- What one detail fetch for one id can observe:
a transport failure or bad status, a page without parseable RENDER_DATA,
or a parsed RENDER_DATA tree. -/
inductive FetchInput where
  | transportFail
  | noRenderData
  | renderData (data : Json)

/-- fetch_aweme_detail: transport and missing-data failures return None;
with data, parse with the id as target; a parse exception propagates. -/
def fetch_aweme_detail (vid : String) (inp : FetchInput) :
    Except Unit (Option AwemeInfo) :=
  match inp with
  | .transportFail => Except.ok none
  | .noRenderData => Except.ok none
  | .renderData data => parse_aweme_from_render_data data (some vid)

/-- The per-item loop of douyin_video_analysis.main: fetch each id in turn,
keep the successful records, and silently skip the failed ones; an
exception escaping a fetch aborts the whole run before anything is
persisted (the output write only happens after the loop). -/
def douyinProcessAll : List (String × FetchInput) → Except Unit (List AwemeInfo)
  | [] => Except.ok []
  | (vid, inp) :: rest =>
      match fetch_aweme_detail vid inp with
      | .error e => Except.error e
      | .ok none => douyinProcessAll rest
      | .ok (some info) =>
          match douyinProcessAll rest with
          | .error e => Except.error e
          | .ok r => Except.ok (info :: r)

/-!
Embedding of the narrow locator and DOM scraper of
src/scrape_from_Jingxuan.py: find_stats_in_json (depth-bounded recursive
search for the four camel-case count keys), try_scrape_stats_from_dom
(all-or-nothing CSS scraping) and the DOM-then-RENDER_DATA fallback of
fetch_stats_for_one_url. A page is modelled as a map from CSS selector to
the text of the first matching element (none meaning no element matches).
-/

/-- The four-count record both Jingxuan locators produce. -/
structure StatsRec where
  digg : Int
  comment : Int
  share : Int
  collect : Int
deriving Repr, DecidableEq

/-- The four required keys of find_stats_in_json. -/
def wantedKeys : List String :=
  ["diggCount", "commentCount", "shareCount", "collectCount"]

/-- One conversion int(obj.get(k, 0) or 0) from find_stats_in_json: a
missing key or falsy value becomes 0; none is the exception a malformed
value raises (caught by the surrounding except, which abandons the record). -/
def statGetOr0 (kvs : List (String × Json)) (k : String) : Option Int :=
  let v := (jsonGet kvs k).getD (Json.num 0)
  pyInt (if v.truthy then v else Json.num 0)

/-- The record-building attempt of find_stats_in_json on a mapping that has
all four wanted keys; none when any conversion raises, in which case the
search continues below the node. -/
def tryStatsRecord (kvs : List (String × Json)) : Option StatsRec :=
  match statGetOr0 kvs "diggCount", statGetOr0 kvs "commentCount",
        statGetOr0 kvs "shareCount", statGetOr0 kvs "collectCount" with
  | some d, some c, some s, some co => some ⟨d, c, s, co⟩
  | _, _, _, _ => none

mutual
/-- find_stats_in_json: depth-limited recursive search for a mapping whose
keys include all four camel-case count fields, descending first into a
stats then a statistics child when that child is a mapping or sequence,
then into every value in order, then across sequence elements. Beyond
depth 30 it gives up with None. -/
def find_stats_in_json (j : Json) (depth : Nat) : Option StatsRec :=
  if 30 < depth then none
  else
    match j with
    | .obj kvs =>
        match (if wantedKeys.all (hasKeyF kvs) then tryStatsRecord kvs else none) with
        | some r => some r
        | none =>
            match findUnderKey kvs "stats" depth with
            | some r => some r
            | none =>
                match findUnderKey kvs "statistics" depth with
                | some r => some r
                | none => findInFields kvs depth
    | .arr xs => findInList xs depth
    | _ => none

/-- The preferred descent of find_stats_in_json into one named child when
that child is a mapping or sequence. -/
def findUnderKey : List (String × Json) → String → Nat → Option StatsRec
  | [], _, _ => none
  | (k, v) :: rest, key, depth =>
      if k == key then
        match v with
        | .obj kvs2 => find_stats_in_json (.obj kvs2) (depth + 1)
        | .arr xs2 => find_stats_in_json (.arr xs2) (depth + 1)
        | _ => none
      else findUnderKey rest key depth

/-- The fallback descent of find_stats_in_json over all mapping values. -/
def findInFields : List (String × Json) → Nat → Option StatsRec
  | [], _ => none
  | (_, v) :: rest, depth =>
      match find_stats_in_json v (depth + 1) with
      | some r => some r
      | none => findInFields rest depth

/-- The descent of find_stats_in_json over sequence elements. -/
def findInList : List Json → Nat → Option StatsRec
  | [], _ => none
  | x :: rest, depth =>
      match find_stats_in_json x (depth + 1) with
      | some r => some r
      | none => findInList rest depth
end

/-- The selector lists of try_scrape_stats_from_dom, in source order. -/
def diggSelectors : List String :=
  ["[data-e2e=\"like-count\"]", "[data-e2e=\"like-icon\"] + span"]

/-- The comment-count selector list. -/
def commentSelectors : List String := ["[data-e2e=\"comment-count\"]"]

/-- The share-count selector list. -/
def shareSelectors : List String := ["[data-e2e=\"share-count\"]"]

/-- The collect-count selector list, covering both attribute variants. -/
def collectSelectors : List String :=
  ["[data-e2e=\"favorite-count\"]", "[data-e2e=\"collect-count\"]"]

/-- One metric of try_scrape_stats_from_dom: try each selector in order,
skip missing elements and empty text, decode the first non-empty text and
stop; ok none when every selector fails; error when the decoder raises
(only NoSuchElementException is caught in the source). -/
def findMetricVal (page : String → Option String) :
    List String → Except Unit (Option Int)
  | [] => Except.ok none
  | css :: rest =>
      match page css with
      | none => findMetricVal page rest
      | some text =>
          let txt := pyStrip text
          if txt == "" then findMetricVal page rest
          else
            match parse_count_text txt with
            | some v => Except.ok (some v)
            | none => Except.error ()

/-- try_scrape_stats_from_dom: scrape the four metrics in dict order and
fail to None as soon as one metric has no usable element. -/
def try_scrape_stats_from_dom (page : String → Option String) :
    Except Unit (Option StatsRec) :=
  match findMetricVal page diggSelectors with
  | .error e => Except.error e
  | .ok none => Except.ok none
  | .ok (some d) =>
      match findMetricVal page commentSelectors with
      | .error e => Except.error e
      | .ok none => Except.ok none
      | .ok (some c) =>
          match findMetricVal page shareSelectors with
          | .error e => Except.error e
          | .ok none => Except.ok none
          | .ok (some s) =>
              match findMetricVal page collectSelectors with
              | .error e => Except.error e
              | .ok none => Except.ok none
              | .ok (some co) => Except.ok (some ⟨d, c, s, co⟩)

/-- The RENDER_DATA fallback of fetch_stats_for_one_url once the DOM
attempt has returned None: no parsed render data (or falsy data) gives
None, otherwise the narrow locator runs from depth 0. -/
def renderFallback (renderData : Option Json) : Option StatsRec :=
  match renderData with
  | none => none
  | some data => if data.truthy then find_stats_in_json data 0 else none

/-- The DOM-then-RENDER_DATA stage of fetch_stats_for_one_url after
navigation has succeeded: a truthy DOM result is returned as is, otherwise
the RENDER_DATA path decides. -/
def fetch_stats_core (page : String → Option String) (renderData : Option Json) :
    Except Unit (Option StatsRec) :=
  match try_scrape_stats_from_dom page with
  | .error e => Except.error e
  | .ok (some r) => Except.ok (some r)
  | .ok none => Except.ok (renderFallback renderData)

/-!
Embedding of src/scrape_from_url_excel.py: parse_stats_from_aweme_detail,
the per-URL retry loop of main (attempts 1..MAX_RETRY_PER_URL with the
open_fail / no_aweme_detail / parse_fail / all_null_stats classification),
and the row write-back that follows the loop. A pandas cell holds a Python
value or is empty; a row is the nine written cells.
-/

/-- MAX_RETRY_PER_URL from the configuration block: attempts per URL,
including the first. -/
def MAX_RETRY_PER_URL : Nat := 2

/-- The raw per-field result dict of parse_stats_from_aweme_detail: each
field is the uninterpreted value stats.get(...) produced, absent when the
key is missing. -/
structure UrlStats where
  aweme_id : Option Json
  author : Option Json
  digg : Option Json
  comment : Option Json
  share : Option Json
  collect : Option Json
  play : Option Json
deriving Repr

/-- Python x is None on a dict-get result: a missing key or a stored None. -/
def isPyNone : Option Json → Bool
  | none => true
  | some .null => true
  | some _ => false

/-- parse_stats_from_aweme_detail: take aweme_detail, or the first element
of aweme_list when aweme_detail is falsy; give up (ok none) unless the
result is a mapping; then read the seven fields through statistics and
author. A truthy non-mapping statistics or author value makes the gets
raise (uncaught AttributeError): error. -/
def parse_stats_from_aweme_detail (data : Json) : Except Unit (Option UrlStats) :=
  match data with
  | .obj kvs =>
      let aweme0 : Json := (jsonGet kvs "aweme_detail").getD Json.null
      let aweme : Json :=
        if aweme0.truthy then aweme0
        else
          match firstTruthyD [jsonGet kvs "aweme_list"] (Json.arr []) with
          | .arr (x :: _) => x
          | _ => aweme0
      match aweme with
      | .obj akvs =>
          let stats := firstTruthyD [jsonGet akvs "statistics"] (Json.obj [])
          let author := firstTruthyD [jsonGet akvs "author"] (Json.obj [])
          match stats, author with
          | .obj skvs, .obj aukvs =>
              Except.ok (some
                { aweme_id := jsonGet akvs "aweme_id"
                  author := jsonGet aukvs "nickname"
                  digg := jsonGet skvs "digg_count"
                  comment := jsonGet skvs "comment_count"
                  share := jsonGet skvs "share_count"
                  collect := jsonGet skvs "collect_count"
                  play := jsonGet skvs "play_count" })
          | _, _ => Except.error ()
      | _ => Except.ok none
  | _ => Except.ok none

/-- The all-null check of main: every one of the five count fields is None. -/
def allNullStats (s : UrlStats) : Bool :=
  isPyNone s.digg && isPyNone s.comment && isPyNone s.share &&
    isPyNone s.collect && isPyNone s.play

/-- What one attempt of the retry loop can observe: driver.get raising, or
the page loading with find_aweme_detail_from_logs returning None or data. -/
inductive UrlAttempt where
  | openFail (msg : String)
  | loaded (data : Option Json)

/-- The error classification one attempt produces: ok none means the
attempt succeeded and the loop breaks; ok (some reason) is the last_error
the attempt leaves; error is an exception escaping the loop (a raising
parse, which nothing catches there). -/
def classifyUrlAttempt (a : UrlAttempt) : Except Unit (Option String) :=
  match a with
  | .openFail e => Except.ok (some ("open_fail: " ++ e))
  | .loaded none => Except.ok (some "no_aweme_detail")
  | .loaded (some data) =>
      match parse_stats_from_aweme_detail data with
      | .error e => Except.error e
      | .ok none => Except.ok (some "parse_fail")
      | .ok (some s) =>
          Except.ok (if allNullStats s then some "all_null_stats" else none)

/-- The retry loop of main over scripted attempts: at most fuel attempts
(fuel = MAX_RETRY_PER_URL at the call site), threading last_error and the
last parsed stats exactly as the source assigns them, breaking on the
first successful attempt; returns the number of attempts performed with
the final last_error and stats. -/
def urlRetryLoop : List UrlAttempt → Nat → Option String → Option UrlStats →
    Except Unit (Nat × Option String × Option UrlStats)
  | _, 0, le, st => Except.ok (0, le, st)
  | [], _ + 1, le, st => Except.ok (0, le, st)
  | a :: rest, fuel + 1, _le, st =>
      match a with
      | .openFail e =>
          match urlRetryLoop rest fuel (some ("open_fail: " ++ e)) st with
          | .error x => Except.error x
          | .ok (n, l, s) => Except.ok (n + 1, l, s)
      | .loaded none =>
          match urlRetryLoop rest fuel (some "no_aweme_detail") st with
          | .error x => Except.error x
          | .ok (n, l, s) => Except.ok (n + 1, l, s)
      | .loaded (some data) =>
          match parse_stats_from_aweme_detail data with
          | .error x => Except.error x
          | .ok none =>
              match urlRetryLoop rest fuel (some "parse_fail") st with
              | .error x => Except.error x
              | .ok (n, l, s) => Except.ok (n + 1, l, s)
          | .ok (some s) =>
              if allNullStats s then
                match urlRetryLoop rest fuel (some "all_null_stats") (some s) with
                | .error x => Except.error x
                | .ok (n, l, s') => Except.ok (n + 1, l, s')
              else Except.ok (1, none, some s)

/-- One spreadsheet row: the seven statistics cells plus ok and the error
reason, each absent when never written. -/
structure ExcelRow where
  aweme_id : Option Json
  author : Option Json
  digg : Option Json
  comment : Option Json
  share : Option Json
  collect : Option Json
  play : Option Json
  ok : Option Bool
  err : Option String
deriving Repr

/-- Writing a raw Python value into a cell: None empties the cell. -/
def cellOf (v : Option Json) : Option Json :=
  match v with
  | some .null => none
  | x => x

/-- The aweme_id write-back str(stats...) if stats... is not None else None. -/
def cellOfId (v : Option Json) : Option Json :=
  if isPyNone v then none
  else
    match v with
    | some j => some (.str (pyStr j))
    | none => none

/-- The write-back after the retry loop (the merge of one FetchOutcome into
the row): a remaining last_error records the failure and reason and leaves
every statistics cell as it was; the defensive stats-missing branch does
the same with its fixed reason; a success overwrites all seven statistics
cells with the incoming values, sets ok and clears the reason. -/
def applyRowOutcome (row : ExcelRow) (lastError : Option String)
    (stats : Option UrlStats) : ExcelRow :=
  match lastError with
  | some e => { row with ok := some false, err := some e }
  | none =>
      match stats with
      | none => { row with ok := some false, err := some "stats_none_after_retry" }
      | some s =>
          { aweme_id := cellOfId s.aweme_id
            author := cellOf s.author
            digg := cellOf s.digg
            comment := cellOf s.comment
            share := cellOf s.share
            collect := cellOf s.collect
            play := cellOf s.play
            ok := some true
            err := none }

/-- One full row of the main loop: an invalid URL records invalid_url and
moves on; otherwise the retry loop runs with MAX_RETRY_PER_URL attempts
and its outcome is merged into the row; error is an exception aborting the
whole run. -/
def processUrlRow (cleanUrl : Option String) (script : List UrlAttempt)
    (row : ExcelRow) : Except Unit ExcelRow :=
  match cleanUrl with
  | none => Except.ok { row with ok := some false, err := some "invalid_url" }
  | some _ =>
      match urlRetryLoop script MAX_RETRY_PER_URL none none with
      | .error e => Except.error e
      | .ok (_, le, st) => Except.ok (applyRowOutcome row le st)

/-!
Spec-side auxiliary definitions used to state the claims: the reason one
attempt leaves, the last_error a failing script accumulates, a
nonnegativity predicate on payload trees, witness trees of arbitrary
nesting depth, and the first usable text of a selector list.
-/

/-- The last_error value one classified attempt leaves (junk on a raising
attempt, which the theorems exclude). -/
def reasonOf (a : UrlAttempt) : Option String :=
  match classifyUrlAttempt a with
  | .ok r => r
  | .error _ => none

/-- The last_error left after a sequence of failing attempts, starting from
a previous value: each attempt overwrites it with its own reason. -/
def lastErrOf : List UrlAttempt → Option String → Option String
  | [], le => le
  | a :: rest, _ => lastErrOf rest (reasonOf a)

mutual
/-- Every numeric leaf of a tree is nonnegative and every string leaf that
int() would accept parses to a nonnegative value: the payload cleanliness
under which normalization is nonnegative. -/
def jsonNonneg : Json → Bool
  | .null => true
  | .bool _ => true
  | .num n => decide (0 ≤ n)
  | .str s =>
      match pyIntOfStr s with
      | some k => decide (0 ≤ k)
      | none => true
  | .arr xs => jsonNonnegL xs
  | .obj kvs => jsonNonnegF kvs

def jsonNonnegL : List Json → Bool
  | [] => true
  | j :: rest => jsonNonneg j && jsonNonnegL rest

def jsonNonnegF : List (String × Json) → Bool
  | [] => true
  | (_, v) :: rest => jsonNonneg v && jsonNonnegF rest
end

/-- A mapping carrying exactly the four camel-case count keys. -/
def statsLeafKVs : List (String × Json) :=
  [("diggCount", .num 1), ("commentCount", .num 2),
   ("shareCount", .num 3), ("collectCount", .num 4)]

/-- A four-count mapping buried under n wrapper mappings. -/
def nestStats : Nat → Json
  | 0 => .obj statsLeafKVs
  | n + 1 => .obj [("a", nestStats n)]

/-- A minimal qualifying aweme node. -/
def awemeLeaf : Json := .obj [("aweme_id", .str "1"), ("stats", .null)]

/-- A qualifying aweme node buried under n wrapper mappings. -/
def nestAweme : Nat → Json
  | 0 => awemeLeaf
  | n + 1 => .obj [("a", nestAweme n)]

/-- The first non-empty stripped text a selector list yields on a page. -/
def firstText (page : String → Option String) : List String → Option String
  | [] => none
  | css :: rest =>
      match page css with
      | none => firstText page rest
      | some t => if pyStrip t == "" then firstText page rest else some (pyStrip t)

/-- Every selector of a list fails on the page: no element, or empty text. -/
def selAllFail (page : String → Option String) (l : List String) : Prop :=
  ∀ css ∈ l, page css = none ∨ ∃ t, page css = some t ∧ pyStrip t = ""

/-!
Theorems. Each claim of the specification has exactly one main theorem,
stated over the embedded definitions above.
-/

/-- C5 counterexample: the decoder is not total — on the input "infw" the
magnitude-suffix branch computes float("inf") and int(inf * 10000) raises
an OverflowError that the except ValueError handler does not catch, so the
call raises instead of returning a value (none in the embedding). -/
theorem count_decoder_raises_on_infw : parse_count_text "infw" = none := by decide

/-- C5 (amended): the decoder strips thousands separators, maps sentinels
and the empty string to zero, decodes the ten-thousand suffix
case-insensitively, falls back to the first numeric substring, returns
zero on text with no parseable number, and the only inputs on which it
fails to return are those whose cleaned form takes the magnitude-suffix
branch or whose first numeric substring has a fractional part (the two
branches where an intermediate float can become infinite). -/
theorem count_decoder_behavior :
    parse_count_text "1,234" = some 1234 ∧
    parse_count_text "-" = some 0 ∧
    parse_count_text "" = some 0 ∧
    parse_count_text "—" = some 0 ∧
    parse_count_text "1.2万" = some 12000 ∧
    parse_count_text "1.2w" = some 12000 ∧
    parse_count_text "1.2W" = some 12000 ∧
    parse_count_text "abc99x" = some 99 ∧
    parse_count_text "1.5" = some 1 ∧
    parse_count_text "xyz" = some 0 ∧
    (∀ text : String, parse_count_text text = none →
      ((cleanCount text).getLast? = some '万' ∨
       ((cleanCount text).map lowerChar).getLast? = some 'w' ∨
       ∃ ds fs, firstNumMatch (cleanCount text) = some (ds, fs) ∧ fs ≠ [])) := by
  refine ⟨by decide, by decide, by decide, by decide, by decide, by decide, by decide,
    by decide, by decide, by decide, ?_⟩
  intro text h
  unfold parse_count_text at h
  split at h
  · exact absurd h (by simp)
  · split at h
    · exact absurd h (by simp)
    · split at h
      · rename_i hcond
        rcases Bool.or_eq_true_iff.mp hcond with hc | hc
        · exact Or.inl (by simpa using hc)
        · exact Or.inr (Or.inl (by simpa using hc))
      · rcases hp : pyIntChars (cleanCount text) with _ | n
        · rw [hp] at h
          dsimp only at h
          unfold fallbackBranch at h
          rcases hm : firstNumMatch (cleanCount text) with _ | ⟨ds, fs⟩ <;>
            rw [hm] at h <;> dsimp only at h
          · exact absurd h (by simp)
          · by_cases hfs : fs.isEmpty = true
            · rw [if_pos hfs] at h
              exact absurd h (by simp)
            · exact Or.inr (Or.inr ⟨ds, fs, rfl, by simpa using hfs⟩)
        · rw [hp] at h
          exact absurd h (by simp)

/-- C5 witness: the amended universal clause applied at the failing input
"infw", whose cleaned form indeed ends in the w suffix. -/
theorem count_decoder_behavior_witness :
    parse_count_text "1,234" = some 1234 ∧
    ((cleanCount "infw").getLast? = some '万' ∨
     ((cleanCount "infw").map lowerChar).getLast? = some 'w' ∨
     ∃ ds fs, firstNumMatch (cleanCount "infw") = some (ds, fs) ∧ fs ≠ []) :=
  ⟨count_decoder_behavior.1,
   count_decoder_behavior.2.2.2.2.2.2.2.2.2.2 "infw" (by decide)⟩

/-- C1 counterexample: the success write-back is not preserve-on-null. A
row holding 播放量 = 100 merged with a successful record whose play field
is absent (and digg 50 present) ends with an emptied play cell: the
absent incoming value erased the previously stored one, while ok became
true. This contradicts the claimed field-presence frame condition. -/
theorem merge_success_erases_absent_play :
    (applyRowOutcome
      { aweme_id := some (.str "1"), author := some (.str "A"),
        digg := some (.num 1), comment := some (.num 2), share := some (.num 3),
        collect := some (.num 4), play := some (.num 100),
        ok := some true, err := none }
      none
      (some { aweme_id := some (.str "1"), author := some (.str "A"),
              digg := some (.num 50), comment := some (.num 2),
              share := some (.num 3), collect := some (.num 4),
              play := none })).play = none ∧
    (applyRowOutcome
      { aweme_id := some (.str "1"), author := some (.str "A"),
        digg := some (.num 1), comment := some (.num 2), share := some (.num 3),
        collect := some (.num 4), play := some (.num 100),
        ok := some true, err := none }
      none
      (some { aweme_id := some (.str "1"), author := some (.str "A"),
              digg := some (.num 50), comment := some (.num 2),
              share := some (.num 3), collect := some (.num 4),
              play := none })).ok = some true := ⟨rfl, rfl⟩

/-- C1 (amended): merging a failure outcome (any remaining last_error, which
covers both recoverable and terminal failures) sets ok = false and the
error reason and leaves every statistics cell untouched; merging a success
overwrites every statistics cell with the incoming values, clearing cells
whose incoming field is absent, and sets ok = true and clears the reason;
in particular a stored digg of 50 survives a subsequent failure merge. -/
theorem merge_failure_frame_and_success_overwrite :
    (∀ (row : ExcelRow) (e : String) (st : Option UrlStats),
      (applyRowOutcome row (some e) st).aweme_id = row.aweme_id ∧
      (applyRowOutcome row (some e) st).author = row.author ∧
      (applyRowOutcome row (some e) st).digg = row.digg ∧
      (applyRowOutcome row (some e) st).comment = row.comment ∧
      (applyRowOutcome row (some e) st).share = row.share ∧
      (applyRowOutcome row (some e) st).collect = row.collect ∧
      (applyRowOutcome row (some e) st).play = row.play ∧
      (applyRowOutcome row (some e) st).ok = some false ∧
      (applyRowOutcome row (some e) st).err = some e) ∧
    (∀ (row : ExcelRow) (s : UrlStats),
      (applyRowOutcome row none (some s)).aweme_id = cellOfId s.aweme_id ∧
      (applyRowOutcome row none (some s)).author = cellOf s.author ∧
      (applyRowOutcome row none (some s)).digg = cellOf s.digg ∧
      (applyRowOutcome row none (some s)).comment = cellOf s.comment ∧
      (applyRowOutcome row none (some s)).share = cellOf s.share ∧
      (applyRowOutcome row none (some s)).collect = cellOf s.collect ∧
      (applyRowOutcome row none (some s)).play = cellOf s.play ∧
      (applyRowOutcome row none (some s)).ok = some true ∧
      (applyRowOutcome row none (some s)).err = none) ∧
    (∀ (row : ExcelRow) (s : UrlStats) (e : String) (st : Option UrlStats),
      s.digg = some (.num 50) →
      (applyRowOutcome (applyRowOutcome row none (some s)) (some e) st).digg
          = some (.num 50) ∧
      (applyRowOutcome (applyRowOutcome row none (some s)) (some e) st).ok
          = some false) := by
  refine ⟨fun row e st => ?_, fun row s => ?_, fun row s e st hdigg => ?_⟩
  · exact ⟨rfl, rfl, rfl, rfl, rfl, rfl, rfl, rfl, rfl⟩
  · exact ⟨rfl, rfl, rfl, rfl, rfl, rfl, rfl, rfl, rfl⟩
  · constructor
    · show cellOf s.digg = some (.num 50)
      rw [hdigg]
      rfl
    · rfl

/-- C1 witness: the digg-survives-failure clause of the amended merge
theorem at a concrete row and record. -/
theorem merge_failure_frame_witness :
    (applyRowOutcome
      (applyRowOutcome
        { aweme_id := none, author := none, digg := none, comment := none,
          share := none, collect := none, play := none, ok := none, err := none }
        none
        (some { aweme_id := none, author := none, digg := some (.num 50),
                comment := none, share := none, collect := none, play := none }))
      (some "not_found") none).digg = some (.num 50) :=
  (merge_failure_frame_and_success_overwrite.2.2
    { aweme_id := none, author := none, digg := none, comment := none,
      share := none, collect := none, play := none, ok := none, err := none }
    { aweme_id := none, author := none, digg := some (.num 50),
      comment := none, share := none, collect := none, play := none }
    "not_found" none rfl).1

/-- On a script of attempts that all fail with a classified reason, the
retry loop given exactly that many attempts performs all of them and ends
with the last attempt's reason as last_error. -/
theorem urlRetryLoop_all_fail :
    ∀ (script : List UrlAttempt) (le0 : Option String) (st0 : Option UrlStats),
      (∀ a ∈ script, ∃ r, classifyUrlAttempt a = .ok (some r)) →
      ∃ st', urlRetryLoop script script.length le0 st0
          = .ok (script.length, lastErrOf script le0, st') := by
  intro script
  induction script with
  | nil => exact fun le0 st0 _ => ⟨st0, rfl⟩
  | cons a rest ih =>
      intro le0 st0 hall
      obtain ⟨r, hr⟩ := hall a (List.mem_cons_self a rest)
      have hrest : ∀ b ∈ rest, ∃ r, classifyUrlAttempt b = .ok (some r) :=
        fun b hb => hall b (List.mem_cons_of_mem a hb)
      cases a with
      | openFail e =>
          obtain ⟨st', h⟩ := ih (some ("open_fail: " ++ e)) st0 hrest
          refine ⟨st', ?_⟩
          simp only [urlRetryLoop, List.length_cons, h, lastErrOf, reasonOf,
            classifyUrlAttempt]
      | loaded odata =>
          cases odata with
          | none =>
              obtain ⟨st', h⟩ := ih (some "no_aweme_detail") st0 hrest
              refine ⟨st', ?_⟩
              simp only [urlRetryLoop, List.length_cons, h, lastErrOf, reasonOf,
                classifyUrlAttempt]
          | some data =>
              rcases hp : parse_stats_from_aweme_detail data with x | os
              · simp [classifyUrlAttempt, hp] at hr
              · cases os with
                | none =>
                    obtain ⟨st', h⟩ := ih (some "parse_fail") st0 hrest
                    refine ⟨st', ?_⟩
                    simp only [urlRetryLoop, List.length_cons, hp, h, lastErrOf,
                      reasonOf, classifyUrlAttempt]
                | some s =>
                    have hnull : allNullStats s = true := by
                      by_contra hn
                      simp [classifyUrlAttempt, hp, hn] at hr
                    obtain ⟨st', h⟩ := ih (some "all_null_stats") (some s) hrest
                    refine ⟨st', ?_⟩
                    simp only [urlRetryLoop, List.length_cons, hp, hnull, if_pos,
                      h, lastErrOf, reasonOf, classifyUrlAttempt]

/-- C3: with MAX_RETRY_PER_URL = 2 attempts, both yielding a structurally
valid record whose five count fields are all None (the all-null case), the
loop performs exactly 2 attempts and ends with last_error
"all_null_stats" (the source's literal tag for the all_null failure) and
the record as stats; the subsequent write-back records the terminal
failure with that reason and leaves every statistics cell unmodified; and
in general a script of classified failures exhausts all its attempts and
ends with the last attempt's reason. -/
theorem retry_exhaustion (d : Json) (s : UrlStats) (row : ExcelRow)
    (hparse : parse_stats_from_aweme_detail d = .ok (some s))
    (hnull : allNullStats s = true) :
    urlRetryLoop [.loaded (some d), .loaded (some d)] MAX_RETRY_PER_URL none none
      = .ok (2, some "all_null_stats", some s) ∧
    (applyRowOutcome row (some "all_null_stats") (some s)).aweme_id = row.aweme_id ∧
    (applyRowOutcome row (some "all_null_stats") (some s)).author = row.author ∧
    (applyRowOutcome row (some "all_null_stats") (some s)).digg = row.digg ∧
    (applyRowOutcome row (some "all_null_stats") (some s)).comment = row.comment ∧
    (applyRowOutcome row (some "all_null_stats") (some s)).share = row.share ∧
    (applyRowOutcome row (some "all_null_stats") (some s)).collect = row.collect ∧
    (applyRowOutcome row (some "all_null_stats") (some s)).play = row.play ∧
    (applyRowOutcome row (some "all_null_stats") (some s)).ok = some false ∧
    (applyRowOutcome row (some "all_null_stats") (some s)).err
        = some "all_null_stats" ∧
    (∀ (script : List UrlAttempt) (le0 : Option String) (st0 : Option UrlStats),
      (∀ a ∈ script, ∃ r, classifyUrlAttempt a = .ok (some r)) →
      ∃ st', urlRetryLoop script script.length le0 st0
          = .ok (script.length, lastErrOf script le0, st')) := by
  refine ⟨?_, rfl, rfl, rfl, rfl, rfl, rfl, rfl, rfl, rfl, urlRetryLoop_all_fail⟩
  simp only [MAX_RETRY_PER_URL, urlRetryLoop, hparse, hnull, if_pos]

/-- C3 witness: the theorem applied to a concrete detail payload whose
statistics mapping is absent, so every count field of the parsed record is
None; and the general clause applied to a one-attempt script. -/
theorem retry_exhaustion_witness :
    urlRetryLoop
      [.loaded (some (.obj [("aweme_detail", .obj [("aweme_id", .str "1")])])),
       .loaded (some (.obj [("aweme_detail", .obj [("aweme_id", .str "1")])]))]
      MAX_RETRY_PER_URL none none
      = .ok (2, some "all_null_stats",
          some { aweme_id := some (.str "1"), author := none, digg := none,
                 comment := none, share := none, collect := none, play := none }) ∧
    (∃ st', urlRetryLoop [.loaded none] 1 none none
        = .ok (1, lastErrOf [.loaded none] none, st')) := by
  have h := retry_exhaustion (.obj [("aweme_detail", .obj [("aweme_id", .str "1")])])
    { aweme_id := some (.str "1"), author := none, digg := none,
      comment := none, share := none, collect := none, play := none }
    { aweme_id := none, author := none, digg := none, comment := none,
      share := none, collect := none, play := none, ok := none, err := none }
    rfl rfl
  refine ⟨h.1, ?_⟩
  have hg := h.2.2.2.2.2.2.2.2.2.2 [.loaded none] none none
    (fun a ha => by
      rw [List.mem_singleton] at ha
      subst ha
      exact ⟨"no_aweme_detail", rfl⟩)
  simpa using hg

/-- The insertion loop only ever appends to the running set. -/
theorem addUpTo_append :
    ∀ (ids g : List String) (cap : Nat), ∃ e, addUpTo ids g cap = g ++ e := by
  intro ids
  induction ids with
  | nil => exact fun g cap => ⟨[], (List.append_nil g).symm⟩
  | cons v rest ih =>
      intro g cap
      by_cases hc : cap ≤ g.length
      · exact ⟨[], by simp [addUpTo, hc]⟩
      · by_cases hv : v ∈ g
        · obtain ⟨e, he⟩ := ih g cap
          exact ⟨e, by simp [addUpTo, hc, setAdd, hv, he]⟩
        · obtain ⟨e, he⟩ := ih (g ++ [v]) cap
          refine ⟨[v] ++ e, ?_⟩
          simp [addUpTo, hc, setAdd, hv, he]

/-- A scan that adds zero identifiers leaves the running set unchanged. -/
theorem collect_added_zero_eq (html : String) (g : List String) (cap : Nat)
    (h : (collect_ids_from_html html g cap).2 = 0) :
    (collect_ids_from_html html g cap).1 = g := by
  obtain ⟨e, he⟩ := addUpTo_append (findVideoIds html ++ findModalIds html) g cap
  simp only [collect_ids_from_html] at h ⊢
  rw [he] at h ⊢
  simp only [List.length_append, Nat.add_sub_cancel_left] at h
  simp [List.length_eq_zero.mp h]

/-- One scan that yields new identifiers without reaching the cap advances
the loop with the strike counter reset. -/
theorem scroll_step_pos (h1 : String) (rest : List String) (g : List String)
    (cap nnr : Nat) (hg : g.length < cap)
    (ha : (collect_ids_from_html h1 g cap).2 ≠ 0)
    (hlt : (collect_ids_from_html h1 g cap).1.length < cap) :
    scroll_and_collect_on_page (h1 :: rest) g cap nnr
      = ((scroll_and_collect_on_page rest (collect_ids_from_html h1 g cap).1 cap 0).1,
         (scroll_and_collect_on_page rest (collect_ids_from_html h1 g cap).1 cap 0).2
           + 1) := by
  simp only [scroll_and_collect_on_page]
  rw [if_pos hg, if_neg ha, if_neg (not_le.mpr hlt)]

/-- A first zero-yield scan does not stop the loop: it advances it with one
strike recorded (the grace rescan follows). -/
theorem scroll_step_zero_first (h1 : String) (rest : List String) (g : List String)
    (cap : Nat) (hg : g.length < cap)
    (ha : (collect_ids_from_html h1 g cap).2 = 0) :
    scroll_and_collect_on_page (h1 :: rest) g cap 0
      = ((scroll_and_collect_on_page rest (collect_ids_from_html h1 g cap).1 cap 1).1,
         (scroll_and_collect_on_page rest (collect_ids_from_html h1 g cap).1 cap 1).2
           + 1) := by
  simp only [scroll_and_collect_on_page]
  rw [if_pos hg, if_pos ha]
  simp

/-- A zero-yield scan with a strike already recorded stops the page after
that scan. -/
theorem scroll_step_zero_second (h1 : String) (rest : List String)
    (g : List String) (cap : Nat) (hg : g.length < cap)
    (ha : (collect_ids_from_html h1 g cap).2 = 0) :
    scroll_and_collect_on_page (h1 :: rest) g cap 1
      = ((collect_ids_from_html h1 g cap).1, 1) := by
  simp only [scroll_and_collect_on_page]
  rw [if_pos hg, if_pos ha]
  simp

/-- Below the cap, the loop always performs at least the next scan. -/
theorem scroll_at_least_one (h1 : String) (rest : List String) (g : List String)
    (cap nnr : Nat) (hg : g.length < cap) :
    1 ≤ (scroll_and_collect_on_page (h1 :: rest) g cap nnr).2 := by
  simp only [scroll_and_collect_on_page]
  rw [if_pos hg]
  split
  · split
    · simp
    · simp
  · split
    · simp
    · simp

/-- C2: the two-strike termination of the Collector. A source whose first
scan yields new identifiers (without reaching the cap), whose second scan
yields none, and whose grace rescan yields none again, is scanned exactly
three times; a single zero-yield scan never stops the source (at least one
more scan always follows); and a scan that yields new identifiers advances
the loop with the zero-yield strike counter reset to zero. -/
theorem collector_two_strike :
    (∀ (h1 h2 h3 : String) (rest : List String) (g : List String) (cap : Nat),
      g.length < cap →
      (collect_ids_from_html h1 g cap).2 ≠ 0 →
      (collect_ids_from_html h1 g cap).1.length < cap →
      (collect_ids_from_html h2 (collect_ids_from_html h1 g cap).1 cap).2 = 0 →
      (collect_ids_from_html h3 (collect_ids_from_html h1 g cap).1 cap).2 = 0 →
      (scroll_and_collect_on_page (h1 :: h2 :: h3 :: rest) g cap 0).2 = 3) ∧
    (∀ (h1 h2 : String) (rest : List String) (g : List String) (cap : Nat),
      g.length < cap →
      (collect_ids_from_html h1 g cap).2 = 0 →
      2 ≤ (scroll_and_collect_on_page (h1 :: h2 :: rest) g cap 0).2) ∧
    (∀ (h1 : String) (rest : List String) (g : List String) (cap nnr : Nat),
      g.length < cap →
      (collect_ids_from_html h1 g cap).2 ≠ 0 →
      (collect_ids_from_html h1 g cap).1.length < cap →
      (scroll_and_collect_on_page (h1 :: rest) g cap nnr).2
        = (scroll_and_collect_on_page rest (collect_ids_from_html h1 g cap).1 cap 0).2
            + 1) := by
  refine ⟨?_, ?_, ?_⟩
  · intro h1 h2 h3 rest g cap hg ha hlt hz2 hz3
    rw [scroll_step_pos h1 (h2 :: h3 :: rest) g cap 0 hg ha hlt]
    have hunch := collect_added_zero_eq h2 (collect_ids_from_html h1 g cap).1 cap hz2
    rw [scroll_step_zero_first h2 (h3 :: rest) (collect_ids_from_html h1 g cap).1
      cap hlt hz2]
    rw [scroll_step_zero_second h3 rest
      (collect_ids_from_html h2 (collect_ids_from_html h1 g cap).1 cap).1 cap
      (by rw [hunch]; exact hlt) (by rw [hunch]; exact hz3)]
  · intro h1 h2 rest g cap hg ha
    have hunch := collect_added_zero_eq h1 g cap ha
    rw [scroll_step_zero_first h1 (h2 :: rest) g cap hg ha]
    have hone := scroll_at_least_one h2 rest (collect_ids_from_html h1 g cap).1 cap 1
      (by rw [hunch]; exact hg)
    omega
  · intro h1 rest g cap nnr hg ha hlt
    rw [scroll_step_pos h1 rest g cap nnr hg ha hlt]

/-- C2 witness: a scripted source that yields one identifier on scan 1 and
nothing on scans 2 and 3 is scanned exactly three times. -/
theorem collector_two_strike_witness :
    (scroll_and_collect_on_page ["/video/11111111111 ", "", ""] [] 5 0).2 = 3 :=
  collector_two_strike.1 "/video/11111111111 " "" "" [] [] 5
    (by decide) (by decide) (by decide) (by decide) (by decide)

/-- The insertion loop appends exactly the new identifiers: the result is
the old set followed by ids that were scanned and not previously present,
and it stays duplicate-free. -/
theorem addUpTo_spec :
    ∀ (ids g : List String) (cap : Nat), g.Nodup →
      ∃ e, addUpTo ids g cap = g ++ e ∧ (g ++ e).Nodup ∧
        ∀ v ∈ e, v ∈ ids ∧ v ∉ g := by
  intro ids
  induction ids with
  | nil =>
      intro g cap hnd
      exact ⟨[], by simp [addUpTo], by simpa using hnd, by simp⟩
  | cons x rest ih =>
      intro g cap hnd
      by_cases hc : cap ≤ g.length
      · exact ⟨[], by simp [addUpTo, hc], by simpa using hnd, by simp⟩
      · by_cases hv : x ∈ g
        · obtain ⟨e, he, hnd', hmem⟩ := ih g cap hnd
          refine ⟨e, by simp [addUpTo, hc, setAdd, hv, he], hnd', ?_⟩
          exact fun v hv' => ⟨List.mem_cons_of_mem x (hmem v hv').1, (hmem v hv').2⟩
        · have hnd2 : (g ++ [x]).Nodup := by
            simp [List.nodup_append, hnd, hv]
          obtain ⟨e, he, hnd', hmem⟩ := ih (g ++ [x]) cap hnd2
          refine ⟨x :: e, ?_, ?_, ?_⟩
          · simp [addUpTo, hc, setAdd, hv, he]
          · simpa [List.append_assoc] using hnd'
          · intro v hv'
            rcases List.mem_cons.mp hv' with rfl | hv''
            · exact ⟨List.mem_cons_self _ _, hv⟩
            · refine ⟨List.mem_cons_of_mem _ (hmem v hv'').1, fun hvg => ?_⟩
              exact (hmem v hv'').2 (List.mem_append_left _ hvg)

/-- The insertion loop never grows the set beyond the cap. -/
theorem addUpTo_le_cap :
    ∀ (ids g : List String) (cap : Nat), g.length ≤ cap →
      (addUpTo ids g cap).length ≤ cap := by
  intro ids
  induction ids with
  | nil => intro g cap h; simpa [addUpTo] using h
  | cons x rest ih =>
      intro g cap h
      by_cases hc : cap ≤ g.length
      · simpa [addUpTo, hc] using h
      · have hlt : g.length < cap := not_le.mp hc
        have hstep : (setAdd g x).length ≤ cap := by
          by_cases hv : x ∈ g
          · simpa [setAdd, hv] using h
          · simp only [setAdd, if_neg hv, List.length_append, List.length_singleton]
            omega
        simpa [addUpTo, hc] using ih (setAdd g x) cap hstep

/-- When the final set is still below the cap, every scanned identifier
made it into the set. -/
theorem addUpTo_complete :
    ∀ (ids g : List String) (cap : Nat),
      (addUpTo ids g cap).length < cap → ∀ v ∈ ids, v ∈ addUpTo ids g cap := by
  intro ids
  induction ids with
  | nil => simp
  | cons x rest ih =>
      intro g cap hlen v hv
      by_cases hc : cap ≤ g.length
      · simp only [addUpTo, if_pos hc] at hlen
        omega
      · simp only [addUpTo, if_neg hc] at hlen ⊢
        rcases List.mem_cons.mp hv with rfl | hv'
        · have hx : v ∈ setAdd g v := by
            by_cases hvg : v ∈ g
            · simp [setAdd, hvg]
            · simp [setAdd, hvg]
          obtain ⟨e, he⟩ := addUpTo_append rest (setAdd g v) cap
          rw [he]
          exact List.mem_append_left _ hx
        · exact ih (setAdd g x) cap hlen v hv'

/-- Across any sequence of scans the collection loop keeps the set
duplicate-free and within the cap. -/
theorem scroll_nodup_cap :
    ∀ (script : List String) (g : List String) (cap nnr : Nat),
      g.Nodup → g.length ≤ cap →
      (scroll_and_collect_on_page script g cap nnr).1.Nodup ∧
      (scroll_and_collect_on_page script g cap nnr).1.length ≤ cap := by
  intro script
  induction script with
  | nil => exact fun g cap nnr h1 h2 => ⟨h1, h2⟩
  | cons h rest ih =>
      intro g cap nnr h1 h2
      have hr1 : (collect_ids_from_html h g cap).1.Nodup := by
        obtain ⟨e, he, hnd, _⟩ := addUpTo_spec (findVideoIds h ++ findModalIds h) g cap h1
        simp only [collect_ids_from_html]
        rw [he]
        exact hnd
      have hr2 : (collect_ids_from_html h g cap).1.length ≤ cap := by
        simpa [collect_ids_from_html] using
          addUpTo_le_cap (findVideoIds h ++ findModalIds h) g cap h2
      simp only [scroll_and_collect_on_page]
      split
      · split
        · split
          · exact ih _ cap 1 hr1 hr2
          · exact ⟨hr1, hr2⟩
        · split
          · exact ⟨hr1, hr2⟩
          · exact ih _ cap 0 hr1 hr2
      · exact ⟨h1, h2⟩

/-- C6: the dedup-and-cap invariant of identifier collection. Starting from
a duplicate-free set within the cap, one scan keeps the set duplicate-free
and within the cap; the set only grows, by identifiers drawn from the two
pattern families (path-style and modal-style ids, unioned) that were not
already present, and the returned count is exactly the number of those new
identifiers; while the cap is not reached every extracted identifier is in
the set; and over any sequence of scans driven by the collection loop the
set stays duplicate-free and within the cap. -/
theorem collect_dedup_cap (html : String) (g : List String) (cap : Nat)
    (hnd : g.Nodup) (hle : g.length ≤ cap) :
    (collect_ids_from_html html g cap).1.Nodup ∧
    (collect_ids_from_html html g cap).1.length ≤ cap ∧
    (∃ e, (collect_ids_from_html html g cap).1 = g ++ e ∧
      (collect_ids_from_html html g cap).2 = e.length ∧
      ∀ v ∈ e, v ∈ findVideoIds html ++ findModalIds html ∧ v ∉ g) ∧
    ((collect_ids_from_html html g cap).1.length < cap →
      ∀ v ∈ findVideoIds html ++ findModalIds html,
        v ∈ (collect_ids_from_html html g cap).1) ∧
    (∀ (script : List String) (nnr : Nat),
      (scroll_and_collect_on_page script g cap nnr).1.Nodup ∧
      (scroll_and_collect_on_page script g cap nnr).1.length ≤ cap) := by
  obtain ⟨e, he, hnd', hmem⟩ := addUpTo_spec (findVideoIds html ++ findModalIds html)
    g cap hnd
  refine ⟨?_, ?_, ⟨e, ?_, ?_, hmem⟩, ?_, fun script nnr => scroll_nodup_cap script g cap nnr hnd hle⟩
  · simp only [collect_ids_from_html]
    rw [he]
    exact hnd'
  · simpa [collect_ids_from_html] using
      addUpTo_le_cap (findVideoIds html ++ findModalIds html) g cap hle
  · simp only [collect_ids_from_html]
    rw [he]
  · simp only [collect_ids_from_html]
    rw [he]
    simp [List.length_append]
  · intro hlt v hv
    simp only [collect_ids_from_html] at hlt ⊢
    exact addUpTo_complete _ g cap hlt v hv

/-- C6 witness: a scan containing one id under each pattern family plus a
duplicate, against an empty set with cap 2. -/
theorem collect_dedup_cap_witness :
    (collect_ids_from_html
      "/video/12345678901 modal_id=12345678901 modal_id=98765432109" [] 2).1.Nodup ∧
    (collect_ids_from_html
      "/video/12345678901 modal_id=12345678901 modal_id=98765432109" [] 2).1.length ≤ 2 := by
  have h := collect_dedup_cap
    "/video/12345678901 modal_id=12345678901 modal_id=98765432109" [] 2
    List.nodup_nil (by decide)
  exact ⟨h.1, h.2.1⟩

mutual
/-- The walker visits exactly the qualifying nodes of the spec-side preorder
traversal, in the same order: parent before children, mapping values in
field order, then sequence elements in index order. -/
theorem walkJ_eq_filter : ∀ j : Json, walkJ j = (preorderJ j).filter isAwemeNode
  | .null => rfl
  | .bool _ => rfl
  | .num _ => rfl
  | .str _ => rfl
  | .arr xs => by
      simp only [walkJ, preorderJ, List.filter_cons, isAwemeNode]
      simp [walkL_eq_filter xs]
  | .obj kvs => by
      cases h : isAwemeFields kvs with
      | true =>
          simp only [walkJ, preorderJ, List.filter_cons, isAwemeNode, h]
          simp [walkF_eq_filter kvs]
      | false =>
          simp only [walkJ, preorderJ, List.filter_cons, isAwemeNode, h]
          simp [walkF_eq_filter kvs]

/-- The sequence-element case of walkJ_eq_filter. -/
theorem walkL_eq_filter : ∀ xs : List Json, walkL xs = (preorderL xs).filter isAwemeNode
  | [] => rfl
  | j :: rest => by
      simp only [walkL, preorderL, List.filter_append]
      rw [walkJ_eq_filter j, walkL_eq_filter rest]

/-- The mapping-value case of walkJ_eq_filter. -/
theorem walkF_eq_filter :
    ∀ kvs : List (String × Json), walkF kvs = (preorderF kvs).filter isAwemeNode
  | [] => rfl
  | (_, v) :: rest => by
      simp only [walkF, preorderF, List.filter_append]
      rw [walkJ_eq_filter v, walkF_eq_filter rest]
end

/-- C4: the locator's determinism and selection policy. The walker collects
exactly the qualifying nodes (mappings holding at least one identifier key
and one statistics key) in deterministic preorder; selection returns None
iff no node qualifies; with no target it returns the first qualifying node
in traversal order; with a target it returns the first qualifying node
whose resolved identifier (fixed key priority, via str()) equals the
target, whenever one matches. -/
theorem locator_selection_policy (data : Json) (targetId : Option String) :
    walkJ data = (preorderJ data).filter isAwemeNode ∧
    (chooseCandidate data targetId = none ↔
      (preorderJ data).filter isAwemeNode = []) ∧
    (targetId = none →
      chooseCandidate data targetId = ((preorderJ data).filter isAwemeNode).head?) ∧
    (∀ t m, targetId = some t →
      ((preorderJ data).filter isAwemeNode).find?
          (fun d => getIdNode d == some t) = some m →
      chooseCandidate data targetId = some m) := by
  have hwf := walkJ_eq_filter data
  refine ⟨hwf, ?_, ?_, ?_⟩
  · rw [← hwf]
    cases hw : walkJ data with
    | nil => simp [chooseCandidate, hw]
    | cons c cs =>
        simp only [chooseCandidate, hw]
        constructor
        · intro h
          cases targetId with
          | none => simp at h
          | some t =>
              cases hfind : (c :: cs).find? (fun d => getIdNode d == some t) with
              | none => simp [hfind] at h
              | some m => simp [hfind] at h
        · intro h
          exact absurd h (List.cons_ne_nil c cs)
  · intro ht
    subst ht
    rw [← hwf]
    cases hw : walkJ data with
    | nil => simp [chooseCandidate, hw]
    | cons c cs => simp [chooseCandidate, hw]
  · intro t m ht hfind
    subst ht
    rw [← hwf] at hfind
    cases hw : walkJ data with
    | nil => rw [hw] at hfind; simp at hfind
    | cons c cs =>
        rw [hw] at hfind
        simp only [chooseCandidate, hw, hfind]

/-- C4 witness: a tree with two qualifying nodes; the target id matching
the second node selects it, and no target selects the first node. -/
theorem locator_selection_policy_witness :
    chooseCandidate
      (.arr [.obj [("aweme_id", .str "111"), ("stats", .null)],
             .obj [("aweme_id", .str "222"), ("stats", .null)]]) (some "222")
      = some (.obj [("aweme_id", .str "222"), ("stats", .null)]) ∧
    chooseCandidate
      (.arr [.obj [("aweme_id", .str "111"), ("stats", .null)],
             .obj [("aweme_id", .str "222"), ("stats", .null)]]) none
      = some (.obj [("aweme_id", .str "111"), ("stats", .null)]) := by
  constructor
  · exact (locator_selection_policy
      (.arr [.obj [("aweme_id", .str "111"), ("stats", .null)],
             .obj [("aweme_id", .str "222"), ("stats", .null)]]) (some "222")).2.2.2
      "222" _ rfl rfl
  · exact ((locator_selection_policy
      (.arr [.obj [("aweme_id", .str "111"), ("stats", .null)],
             .obj [("aweme_id", .str "222"), ("stats", .null)]]) none).2.2.1
      rfl).trans rfl

/-- Beyond depth 30 the narrow locator unconditionally reports no result. -/
theorem find_stats_depth_ceiling :
    ∀ (j : Json) (d : Nat), 30 < d → find_stats_in_json j d = none := by
  intro j d h
  unfold find_stats_in_json
  rw [if_pos h]

/-- A four-count mapping buried deeper than the ceiling allows is never
reached: the narrow locator reports no result however the tree qualifies. -/
theorem nestStats_deep_none :
    ∀ (k d : Nat), 30 < d + k → find_stats_in_json (nestStats k) d = none := by
  intro k
  induction k with
  | zero => exact fun d h => find_stats_depth_ceiling _ d (by omega)
  | succ n ih =>
      intro d h
      by_cases hd : 30 < d
      · exact find_stats_depth_ceiling _ d hd
      · have hrec := ih (d + 1) (by omega)
        rw [show nestStats (n + 1) = .obj [("a", nestStats n)] from rfl]
        rw [find_stats_in_json.eq_def]
        rw [if_neg hd]
        simp [findUnderKey, findInFields, hrec, wantedKeys, hasKeyF, tryStatsRecord]

/-- The full walker has no depth ceiling: it finds the one qualifying node
at every nesting depth. -/
theorem walk_nestAweme : ∀ n : Nat, walkJ (nestAweme n) = [awemeLeaf] := by
  intro n
  induction n with
  | zero => rfl
  | succ m ih =>
      simp [nestAweme, walkJ, walkF, isAwemeFields, idKeys, statsKeys, hasKeyF, ih]

/-- C7 (amended): both locator variants terminate on every finite tree and
silently skip non-mapping, non-sequence leaves, but only the narrow variant
(find_stats_in_json) enforces the traversal depth ceiling — beyond depth 30
it returns the no-result value, so qualifying nodes nested deeper than the
ceiling are unreachable to it — while the full walker recurses without any
ceiling and collects qualifying nodes at every depth. -/
theorem locator_depth_and_leaves :
    (∀ (j : Json) (d : Nat), 30 < d → find_stats_in_json j d = none) ∧
    (∀ n : Nat, 30 < n → find_stats_in_json (nestStats n) 0 = none) ∧
    (∀ n : Nat, walkJ (nestAweme n) = [awemeLeaf]) ∧
    (∀ d : Nat, find_stats_in_json .null d = none) ∧
    (∀ (d : Nat) (b : Bool), find_stats_in_json (.bool b) d = none) ∧
    (∀ (d : Nat) (n : Int), find_stats_in_json (.num n) d = none) ∧
    (∀ (d : Nat) (s : String), find_stats_in_json (.str s) d = none) ∧
    walkJ .null = [] ∧ (∀ b : Bool, walkJ (.bool b) = []) ∧
    (∀ n : Int, walkJ (.num n) = []) ∧ (∀ s : String, walkJ (.str s) = []) := by
  refine ⟨find_stats_depth_ceiling, fun n h => nestStats_deep_none n 0 (by omega),
    walk_nestAweme, ?_, ?_, ?_, ?_, rfl, fun _ => rfl, fun _ => rfl, fun _ => rfl⟩
  all_goals intro d
  · rw [find_stats_in_json.eq_def]; simp
  · intro b; rw [find_stats_in_json.eq_def]; simp
  · intro n; rw [find_stats_in_json.eq_def]; simp
  · intro s; rw [find_stats_in_json.eq_def]; simp

/-- C7 counterexample: the claim fails for the full walker — a qualifying
four-count node nested 40 deep is invisible to the depth-bounded variant,
while the walker, which the claim also asserts to stop via a depth ceiling,
still collects a qualifying node at depth 40 (its recursion is unbounded;
in CPython it would exhaust the recursion limit rather than return the
no-result value). -/
theorem locator_no_ceiling_counterexample :
    find_stats_in_json (nestStats 40) 0 = none ∧
    find_stats_in_json (nestStats 0) 0 = some ⟨1, 2, 3, 4⟩ ∧
    walkJ (nestAweme 40) = [awemeLeaf] ∧
    isAwemeNode awemeLeaf = true := ⟨by decide, by decide, rfl, rfl⟩

/-- C7 witness: the amended theorem applied at depth 31 and at a 31-deep
tree. -/
theorem locator_depth_and_leaves_witness :
    find_stats_in_json .null 31 = none ∧
    find_stats_in_json (nestStats 31) 0 = none ∧
    walkJ (nestAweme 31) = [awemeLeaf] :=
  ⟨locator_depth_and_leaves.1 .null 31 (by decide),
   locator_depth_and_leaves.2.1 31 (by decide),
   locator_depth_and_leaves.2.2.1 31⟩

mutual
/-- Nonnegativity of the leaves is hereditary: every node the walker
collects from a clean tree is clean. -/
theorem walkJ_nonneg :
    ∀ j : Json, jsonNonneg j = true → ∀ c ∈ walkJ j, jsonNonneg c = true
  | .null => by intro h c hc; simp [walkJ] at hc
  | .bool b => by intro h c hc; simp [walkJ] at hc
  | .num n => by intro h c hc; simp [walkJ] at hc
  | .str s => by intro h c hc; simp [walkJ] at hc
  | .arr xs => by
      intro h c hc
      exact walkL_nonneg xs (by simpa [jsonNonneg] using h) c (by simpa [walkJ] using hc)
  | .obj kvs => by
      intro h c hc
      rcases (by simpa [walkJ] using hc :
          (isAwemeFields kvs = true ∧ c = Json.obj kvs) ∨ c ∈ walkF kvs) with
        ⟨hq, rfl⟩ | h2
      · exact h
      · exact walkF_nonneg kvs (by simpa [jsonNonneg] using h) c h2

/-- The sequence case of walkJ_nonneg. -/
theorem walkL_nonneg :
    ∀ xs : List Json, jsonNonnegL xs = true → ∀ c ∈ walkL xs, jsonNonneg c = true
  | [] => by intro h c hc; simp [walkL] at hc
  | j :: rest => by
      intro h c hc
      have h' := Bool.and_eq_true_iff.mp (by simpa [jsonNonnegL] using h)
      rcases List.mem_append.mp (by simpa [walkL] using hc) with h1 | h2
      · exact walkJ_nonneg j h'.1 c h1
      · exact walkL_nonneg rest h'.2 c h2

/-- The mapping case of walkJ_nonneg. -/
theorem walkF_nonneg :
    ∀ kvs : List (String × Json), jsonNonnegF kvs = true →
      ∀ c ∈ walkF kvs, jsonNonneg c = true
  | [] => by intro h c hc; simp [walkF] at hc
  | (k, v) :: rest => by
      intro h c hc
      have h' := Bool.and_eq_true_iff.mp (by simpa [jsonNonnegF] using h)
      rcases List.mem_append.mp (by simpa [walkF] using hc) with h1 | h2
      · exact walkJ_nonneg v h'.1 c h1
      · exact walkF_nonneg rest h'.2 c h2
end

/-- A lookup in a clean mapping yields a clean value. -/
theorem jsonGet_nonneg :
    ∀ (kvs : List (String × Json)) (k : String) (v : Json),
      jsonNonnegF kvs = true → jsonGet kvs k = some v → jsonNonneg v = true := by
  intro kvs
  induction kvs with
  | nil => intro k v h hg; simp [jsonGet] at hg
  | cons kv rest ih =>
      intro k v h hg
      rcases kv with ⟨k', v'⟩
      have h' := Bool.and_eq_true_iff.mp (by simpa [jsonNonnegF] using h)
      simp only [jsonGet] at hg
      by_cases he : (k' == k) = true
      · rw [List.find?_cons_of_pos _ (by simpa using he)] at hg
        simp only [Option.map_some'] at hg
        rw [← Option.some_inj.mp hg]
        exact h'.1
      · rw [List.find?_cons_of_neg _ (by simpa using he)] at hg
        exact ih k v h'.2 (by simpa [jsonGet] using hg)

/-- A truthiness-or chain over clean alternatives with a clean default is
clean. -/
theorem firstTruthyD_nonneg :
    ∀ (opts : List (Option Json)) (dflt : Json),
      (∀ o ∈ opts, ∀ v, o = some v → jsonNonneg v = true) →
      jsonNonneg dflt = true →
      jsonNonneg (firstTruthyD opts dflt) = true := by
  intro opts
  induction opts with
  | nil => intro dflt _ hd; exact hd
  | cons o rest ih =>
      intro dflt h hd
      cases o with
      | none =>
          exact ih dflt (fun o ho v hv => h o (List.mem_cons_of_mem _ ho) v hv) hd
      | some v =>
          cases ht : v.truthy with
          | true =>
              simpa [firstTruthyD, ht] using h (some v) (List.mem_cons_self _ _) v rfl
          | false =>
              simp only [firstTruthyD, ht, Bool.false_eq_true, if_false]
              exact ih dflt (fun o ho w hw => h o (List.mem_cons_of_mem _ ho) w hw) hd

/-- int() of a clean value is nonnegative. -/
theorem pyInt_nonneg :
    ∀ (v : Json) (n : Int), jsonNonneg v = true → pyInt v = some n → 0 ≤ n := by
  intro v n h hp
  cases v with
  | num m =>
      simp only [pyInt, Option.some_inj] at hp
      subst hp
      simpa [jsonNonneg] using h
  | bool b =>
      simp only [pyInt, Option.some_inj] at hp
      subst hp
      cases b <;> simp
  | str s =>
      simp only [pyInt] at hp
      rw [jsonNonneg, hp] at h
      simpa using h
  | null => simp [pyInt] at hp
  | arr xs => simp [pyInt] at hp
  | obj kvs => simp [pyInt] at hp

/-- One normalized statistics field of a clean stats mapping is
nonnegative. -/
theorem statCount_nonneg (stats : Json) (k1 k2 : String) (n : Int)
    (h : jsonNonneg stats = true) (hc : statCount stats k1 k2 = .ok n) : 0 ≤ n := by
  cases stats with
  | obj kvs =>
      simp only [statCount] at hc
      have hwn : jsonNonneg (firstTruthyD [jsonGet kvs k1, jsonGet kvs k2]
          (Json.num 0)) = true := by
        apply firstTruthyD_nonneg
        · intro o ho v hv
          rcases (by simpa using ho : o = jsonGet kvs k1 ∨ o = jsonGet kvs k2) with
            rfl | rfl
          · exact jsonGet_nonneg kvs k1 v h hv
          · exact jsonGet_nonneg kvs k2 v h hv
        · decide
      apply pyInt_nonneg _ n hwn
      simp only [pyIntE] at hc
      rcases hpw : pyInt (firstTruthyD [jsonGet kvs k1, jsonGet kvs k2]
          (Json.num 0)) with _ | m
      · rw [hpw] at hc
        simp at hc
      · rw [hpw] at hc
        simp only [Except.ok.injEq] at hc
        rw [hc]
  | null => simp [statCount] at hc
  | bool b => simp [statCount] at hc
  | num m => simp [statCount] at hc
  | str s => simp [statCount] at hc
  | arr xs => simp [statCount] at hc

/-- The selected candidate is one of the walked nodes. -/
theorem chooseCandidate_mem (data : Json) (t : Option String) (c : Json)
    (h : chooseCandidate data t = some c) : c ∈ walkJ data := by
  cases hw : walkJ data with
  | nil => simp [chooseCandidate, hw] at h
  | cons x xs =>
      simp only [chooseCandidate, hw] at h
      cases t with
      | none =>
          simp only [Option.some_inj] at h
          rw [← h]
          exact List.mem_cons_self _ _
      | some tt =>
          dsimp only at h
          cases hf : (x :: xs).find? (fun d => getIdNode d == some tt) with
          | none =>
              rw [hf] at h
              simp only [Option.some_inj] at h
              rw [← h]
              exact List.mem_cons_self _ _
          | some m =>
              rw [hf] at h
              simp only [Option.some_inj] at h
              rw [← h]
              exact List.mem_of_find?_eq_some hf

/-- C8 counterexample: the count invariant fails on both normalization
paths. The RENDER_DATA normalizer passes a negative source count straight
through int(), producing a negative digg_count; and the detail-JSON parser
stores the raw uninterpreted value, so a count field can be a raw string. -/
theorem counts_invariant_counterexample :
    parse_aweme_from_render_data
      (.obj [("aweme_id", .str "7"), ("stats", .obj [("digg_count", .num (-5))])])
      none
      = .ok (some ⟨"7", .str "", .str "", -5, 0, 0, 0, 0⟩) ∧
    ((⟨"7", .str "", .str "", -5, 0, 0, 0, 0⟩ : AwemeInfo).digg_count < 0) ∧
    parse_stats_from_aweme_detail
      (.obj [("aweme_detail", .obj [("aweme_id", .str "1"),
        ("statistics", .obj [("digg_count", .str "abc")])])])
      = .ok (some { aweme_id := some (.str "1"),
                    author := none,
                    digg := some (.str "abc"),
                    comment := none,
                    share := none,
                    collect := none,
                    play := none }) := ⟨rfl, by decide, rfl⟩

/-- C8 (amended): in the RENDER_DATA path every count field of a normalized
record is a machine integer produced by int() coercion, and it is
nonnegative whenever the payload is clean (every numeric leaf nonnegative
and every int()-parseable string leaf nonnegative); negative source values
pass through unchanged, and in the detail-JSON path (scrape_from_url_excel)
the raw source values, including strings, are stored without conversion. -/
theorem normalized_counts_nonneg (data : Json) (targetId : Option String)
    (info : AwemeInfo) (hnn : jsonNonneg data = true)
    (hok : parse_aweme_from_render_data data targetId = .ok (some info)) :
    0 ≤ info.digg_count ∧ 0 ≤ info.comment_count ∧ 0 ≤ info.share_count ∧
    0 ≤ info.collect_count ∧ 0 ≤ info.play_count := by
  unfold parse_aweme_from_render_data at hok
  cases hcc : chooseCandidate data targetId with
  | none => rw [hcc] at hok; simp at hok
  | some chosen =>
      rw [hcc] at hok
      have hcn : jsonNonneg chosen = true :=
        walkJ_nonneg data hnn chosen (chooseCandidate_mem data targetId chosen hcc)
      have hstats : jsonNonneg
          (firstTruthyD [objGet chosen "stats", objGet chosen "statistics"]
            (Json.obj [])) = true := by
        apply firstTruthyD_nonneg
        · intro o ho v hv
          have hkey : ∀ k : String, objGet chosen k = some v → jsonNonneg v = true := by
            intro k hk
            cases chosen with
            | obj kvs => exact jsonGet_nonneg kvs k v hcn hk
            | null => simp [objGet] at hk
            | bool b => simp [objGet] at hk
            | num n => simp [objGet] at hk
            | str s => simp [objGet] at hk
            | arr xs => simp [objGet] at hk
          rcases (by simpa using ho :
              o = objGet chosen "stats" ∨ o = objGet chosen "statistics") with rfl | rfl
          · exact hkey "stats" hv
          · exact hkey "statistics" hv
        · decide
      dsimp only at hok
      rcases h1 : statCount (firstTruthyD [objGet chosen "stats",
          objGet chosen "statistics"] (Json.obj [])) "diggCount" "digg_count" with
        x1 | d
      · rw [h1] at hok; simp at hok
      rcases h2 : statCount (firstTruthyD [objGet chosen "stats",
          objGet chosen "statistics"] (Json.obj [])) "commentCount" "comment_count" with
        x2 | c
      · rw [h1, h2] at hok; simp at hok
      rcases h3 : statCount (firstTruthyD [objGet chosen "stats",
          objGet chosen "statistics"] (Json.obj [])) "shareCount" "share_count" with
        x3 | s
      · rw [h1, h2, h3] at hok; simp at hok
      rcases h4 : statCount (firstTruthyD [objGet chosen "stats",
          objGet chosen "statistics"] (Json.obj [])) "collectCount" "collect_count" with
        x4 | co
      · rw [h1, h2, h3, h4] at hok; simp at hok
      rcases h5 : statCount (firstTruthyD [objGet chosen "stats",
          objGet chosen "statistics"] (Json.obj [])) "playCount" "play_count" with
        x5 | p
      · rw [h1, h2, h3, h4, h5] at hok; simp at hok
      rw [h1, h2, h3, h4, h5] at hok
      simp only [Except.ok.injEq, Option.some_inj] at hok
      rw [← hok]
      exact ⟨statCount_nonneg _ _ _ d hstats h1, statCount_nonneg _ _ _ c hstats h2,
        statCount_nonneg _ _ _ s hstats h3, statCount_nonneg _ _ _ co hstats h4,
        statCount_nonneg _ _ _ p hstats h5⟩

/-- C8 witness: the nonnegativity theorem applied to a clean concrete
payload. -/
theorem normalized_counts_nonneg_witness :
    0 ≤ (⟨"5", Json.str "", Json.str "", 3, 0, 0, 0, 0⟩ : AwemeInfo).digg_count ∧
    0 ≤ (⟨"5", Json.str "", Json.str "", 3, 0, 0, 0, 0⟩ : AwemeInfo).play_count := by
  have h := normalized_counts_nonneg
    (.obj [("aweme_id", .str "5"), ("statistics", .obj [("digg_count", .num 3)])])
    none ⟨"5", Json.str "", Json.str "", 3, 0, 0, 0, 0⟩ (by decide) rfl
  exact ⟨h.1, h.2.2.2.2⟩

/-- When no attempt's parse raises, the retry loop always returns a
classified triple instead of propagating an exception. -/
theorem urlRetryLoop_no_raise :
    ∀ (script : List UrlAttempt) (fuel : Nat) (le : Option String)
      (st : Option UrlStats),
      (∀ a ∈ script, classifyUrlAttempt a ≠ .error ()) →
      ∃ t, urlRetryLoop script fuel le st = .ok t := by
  intro script
  induction script with
  | nil => intro fuel le st _; cases fuel <;> exact ⟨_, rfl⟩
  | cons a rest ih =>
      intro fuel le st h
      cases fuel with
      | zero => exact ⟨_, rfl⟩
      | succ f =>
          have ha := h a (List.mem_cons_self a rest)
          have hrest : ∀ b ∈ rest, classifyUrlAttempt b ≠ .error () :=
            fun b hb => h b (List.mem_cons_of_mem a hb)
          cases a with
          | openFail e =>
              obtain ⟨⟨n, l, s⟩, ht⟩ := ih f (some ("open_fail: " ++ e)) st hrest
              exact ⟨(n + 1, l, s), by simp [urlRetryLoop, ht]⟩
          | loaded odata =>
              cases odata with
              | none =>
                  obtain ⟨⟨n, l, s⟩, ht⟩ := ih f (some "no_aweme_detail") st hrest
                  exact ⟨(n + 1, l, s), by simp [urlRetryLoop, ht]⟩
              | some data =>
                  rcases hp : parse_stats_from_aweme_detail data with x | os
                  · exact absurd (by simp [classifyUrlAttempt, hp]) ha
                  · cases os with
                    | none =>
                        obtain ⟨⟨n, l, s⟩, ht⟩ := ih f (some "parse_fail") st hrest
                        exact ⟨(n + 1, l, s), by simp [urlRetryLoop, hp, ht]⟩
                    | some s =>
                        by_cases hn : allNullStats s = true
                        · obtain ⟨⟨n, l, s'⟩, ht⟩ :=
                            ih f (some "all_null_stats") (some s) hrest
                          exact ⟨(n + 1, l, s'), by simp [urlRetryLoop, hp, hn, ht]⟩
                        · exact ⟨(1, none, some s), by simp [urlRetryLoop, hp, hn]⟩

/-- C9 (amended, Excel pipeline side): provided no attempt's payload makes
the parser raise, processing one row never aborts — it always produces a
written row that ends in exactly one visible outcome: ok = true with the
reason cleared, or ok = false with a recorded failure reason. -/
theorem excel_row_outcome_total (cleanUrl : Option String)
    (script : List UrlAttempt) (row : ExcelRow)
    (hsafe : ∀ a ∈ script, classifyUrlAttempt a ≠ .error ()) :
    ∃ row', processUrlRow cleanUrl script row = .ok row' ∧
      ((row'.ok = some true ∧ row'.err = none) ∨
       (row'.ok = some false ∧ ∃ r, row'.err = some r)) := by
  cases cleanUrl with
  | none => exact ⟨_, rfl, Or.inr ⟨rfl, "invalid_url", rfl⟩⟩
  | some u =>
      obtain ⟨⟨n, le, st⟩, ht⟩ :=
        urlRetryLoop_no_raise script MAX_RETRY_PER_URL none none hsafe
      refine ⟨applyRowOutcome row le st, ?_, ?_⟩
      · simp [processUrlRow, ht]
      · cases le with
        | some e => exact Or.inr ⟨rfl, e, rfl⟩
        | none =>
            cases st with
            | none => exact Or.inr ⟨rfl, "stats_none_after_retry", rfl⟩
            | some s => exact Or.inl ⟨rfl, rfl⟩

/-- C9 witness: the amended theorem at a one-attempt script whose page
loads but exposes no statistics interface. -/
theorem excel_row_outcome_total_witness :
    ∃ row', processUrlRow (some "u") [UrlAttempt.loaded none]
      { aweme_id := none, author := none, digg := none, comment := none,
        share := none, collect := none, play := none, ok := none, err := none }
      = .ok row' ∧
      ((row'.ok = some true ∧ row'.err = none) ∨
       (row'.ok = some false ∧ ∃ r, row'.err = some r)) :=
  excel_row_outcome_total (some "u") [UrlAttempt.loaded none]
    { aweme_id := none, author := none, digg := none, comment := none,
      share := none, collect := none, play := none, ok := none, err := none }
    (fun a ha => by
      rw [List.mem_singleton] at ha
      subst ha
      exact fun hcon => Except.noConfusion hcon)

/-- C9 counterexample: in the feed pipeline the claim fails in both parts.
An item whose fetch fails is silently absent from the persisted output
(the run succeeds with an empty result list, recording no failure row),
and an item whose RENDER_DATA carries a malformed count string makes the
normalizer's int() raise, aborting the whole run before anything is
written. -/
theorem run_error_containment_counterexample :
    douyinProcessAll [("1", .transportFail)] = .ok [] ∧
    douyinProcessAll [("99", .renderData
      (.obj [("aweme_id", .str "99"),
             ("statistics", .obj [("digg_count", .str "1.2万")])]))]
      = .error () := ⟨rfl, rfl⟩

/-- A selector list with no usable text yields no metric value (and cannot
raise, since the decoder is never invoked). -/
theorem findMetricVal_none (page : String → Option String) :
    ∀ l : List String, firstText page l = none →
      findMetricVal page l = .ok none := by
  intro l
  induction l with
  | nil => intro _; rfl
  | cons css rest ih =>
      intro h
      simp only [firstText] at h
      simp only [findMetricVal]
      cases hp : page css with
      | none =>
          rw [hp] at h
          exact ih h
      | some t =>
          rw [hp] at h
          dsimp only at h ⊢
          by_cases he : (pyStrip t == "") = true
          · rw [if_pos he] at h
            rw [if_pos he]
            exact ih h
          · rw [if_neg he] at h
            simp at h

/-- The first usable text of a selector list determines the metric value:
if it decodes, the scan returns exactly that decoded value. -/
theorem findMetricVal_some (page : String → Option String) :
    ∀ (l : List String) (t : String), firstText page l = some t →
      ∀ v : Int, parse_count_text t = some v →
        findMetricVal page l = .ok (some v) := by
  intro l
  induction l with
  | nil => intro t h; simp [firstText] at h
  | cons css rest ih =>
      intro t h v hv
      simp only [firstText] at h
      simp only [findMetricVal]
      cases hp : page css with
      | none =>
          rw [hp] at h
          exact ih t h v hv
      | some u =>
          rw [hp] at h
          dsimp only at h ⊢
          by_cases he : (pyStrip u == "") = true
          · rw [if_pos he] at h
            rw [if_pos he]
            exact ih t h v hv
          · rw [if_neg he] at h
            rw [if_neg he]
            simp only [Option.some_inj] at h
            rw [← h] at hv
            rw [hv]

/-- The first usable text always comes from an element the page served. -/
theorem firstText_some_shape (page : String → Option String) :
    ∀ (l : List String) (t : String), firstText page l = some t →
      ∃ css t0, page css = some t0 ∧ t = pyStrip t0 := by
  intro l
  induction l with
  | nil => intro t h; simp [firstText] at h
  | cons css rest ih =>
      intro t h
      simp only [firstText] at h
      cases hp : page css with
      | none => rw [hp] at h; exact ih t h
      | some u =>
          rw [hp] at h
          dsimp only at h
          by_cases he : (pyStrip u == "") = true
          · rw [if_pos he] at h
            exact ih t h
          · rw [if_neg he] at h
            simp only [Option.some_inj] at h
            exact ⟨css, u, hp, h.symm⟩

/-- No usable text on a selector list is exactly the all-selectors-fail
condition. -/
theorem firstText_none_iff (page : String → Option String) :
    ∀ l : List String, firstText page l = none ↔ selAllFail page l := by
  intro l
  induction l with
  | nil => simp [firstText, selAllFail]
  | cons css rest ih =>
      have hsplit : selAllFail page (css :: rest) ↔
          ((page css = none ∨ ∃ t, page css = some t ∧ pyStrip t = "") ∧
            selAllFail page rest) := by
        simp [selAllFail, List.forall_mem_cons]
      rw [hsplit]
      simp only [firstText]
      cases hp : page css with
      | none => simp [ih]
      | some t =>
          dsimp only
          by_cases he : (pyStrip t == "") = true
          · rw [if_pos he, ih]
            constructor
            · intro h
              exact ⟨Or.inr ⟨t, rfl, by simpa using he⟩, h⟩
            · intro h
              exact h.2
          · rw [if_neg he]
            constructor
            · intro h
              simp at h
            · intro h
              rcases h.1 with h1 | ⟨t', ht', he'⟩
              · exact absurd h1 (by simp)
              · rw [← Option.some_inj.mp ht'] at he'
                exact absurd he' (by simpa using he)

/-- Each metric scan either fails with every selector unusable, or returns
the decoded value of the first usable text. -/
theorem metricDichotomy (page : String → Option String)
    (hsafe : ∀ css t, page css = some t → (parse_count_text (pyStrip t)).isSome = true)
    (l : List String) :
    (findMetricVal page l = .ok none ∧ selAllFail page l) ∨
    (∃ t v, firstText page l = some t ∧ parse_count_text t = some v ∧
      findMetricVal page l = .ok (some v)) := by
  cases hft : firstText page l with
  | none =>
      exact Or.inl ⟨findMetricVal_none page l hft, (firstText_none_iff page l).mp hft⟩
  | some t =>
      obtain ⟨css, t0, hpage, ht⟩ := firstText_some_shape page l t hft
      subst ht
      obtain ⟨v, hv⟩ := Option.isSome_iff_exists.mp (hsafe css t0 hpage)
      exact Or.inr ⟨pyStrip t0, v, rfl, hv,
        findMetricVal_some page l (pyStrip t0) hft v hv⟩

/-- C10 (amended): provided no matched element's text makes the count
decoder raise, the DOM scraper is all-or-nothing — it returns either None
or a record carrying all four metrics, each decoded from the first usable
text of its selector list; it returns None exactly when some metric has no
selector with a usable (present, non-empty) text; and the caller falls
back to the RENDER_DATA path exactly when the DOM result is None. -/
theorem dom_scraper_all_or_nothing (page : String → Option String)
    (hsafe : ∀ css t, page css = some t → (parse_count_text (pyStrip t)).isSome = true) :
    ((∃ r, try_scrape_stats_from_dom page = .ok (some r)) ∨
      try_scrape_stats_from_dom page = .ok none) ∧
    (try_scrape_stats_from_dom page = .ok none ↔
      (selAllFail page diggSelectors ∨ selAllFail page commentSelectors ∨
       selAllFail page shareSelectors ∨ selAllFail page collectSelectors)) ∧
    (∀ r : StatsRec, try_scrape_stats_from_dom page = .ok (some r) →
      (∃ t, firstText page diggSelectors = some t ∧
        parse_count_text t = some r.digg) ∧
      (∃ t, firstText page commentSelectors = some t ∧
        parse_count_text t = some r.comment) ∧
      (∃ t, firstText page shareSelectors = some t ∧
        parse_count_text t = some r.share) ∧
      (∃ t, firstText page collectSelectors = some t ∧
        parse_count_text t = some r.collect)) ∧
    (∀ (rd : Option Json) (r : StatsRec),
      try_scrape_stats_from_dom page = .ok (some r) →
      fetch_stats_core page rd = .ok (some r)) ∧
    (∀ rd : Option Json, try_scrape_stats_from_dom page = .ok none →
      fetch_stats_core page rd = .ok (renderFallback rd)) := by
  have hfetchS : ∀ (rd : Option Json) (r : StatsRec),
      try_scrape_stats_from_dom page = .ok (some r) →
      fetch_stats_core page rd = .ok (some r) := by
    intro rd r h
    simp [fetch_stats_core, h]
  have hfetchN : ∀ rd : Option Json, try_scrape_stats_from_dom page = .ok none →
      fetch_stats_core page rd = .ok (renderFallback rd) := by
    intro rd h
    simp [fetch_stats_core, h]
  rcases metricDichotomy page hsafe diggSelectors with ⟨hm1, hf1⟩ | ⟨t1, v1, hft1, hpv1, hm1⟩
  · have htry : try_scrape_stats_from_dom page = .ok none := by
      simp [try_scrape_stats_from_dom, hm1]
    refine ⟨Or.inr htry, ⟨fun _ => Or.inl hf1, fun _ => htry⟩, ?_, hfetchS, hfetchN⟩
    intro r hr
    rw [htry] at hr
    exact absurd hr (by simp)
  · rcases metricDichotomy page hsafe commentSelectors with ⟨hm2, hf2⟩ |
      ⟨t2, v2, hft2, hpv2, hm2⟩
    · have htry : try_scrape_stats_from_dom page = .ok none := by
        simp [try_scrape_stats_from_dom, hm1, hm2]
      refine ⟨Or.inr htry, ⟨fun _ => Or.inr (Or.inl hf2), fun _ => htry⟩, ?_,
        hfetchS, hfetchN⟩
      intro r hr
      rw [htry] at hr
      exact absurd hr (by simp)
    · rcases metricDichotomy page hsafe shareSelectors with ⟨hm3, hf3⟩ |
        ⟨t3, v3, hft3, hpv3, hm3⟩
      · have htry : try_scrape_stats_from_dom page = .ok none := by
          simp [try_scrape_stats_from_dom, hm1, hm2, hm3]
        refine ⟨Or.inr htry, ⟨fun _ => Or.inr (Or.inr (Or.inl hf3)), fun _ => htry⟩,
          ?_, hfetchS, hfetchN⟩
        intro r hr
        rw [htry] at hr
        exact absurd hr (by simp)
      · rcases metricDichotomy page hsafe collectSelectors with ⟨hm4, hf4⟩ |
          ⟨t4, v4, hft4, hpv4, hm4⟩
        · have htry : try_scrape_stats_from_dom page = .ok none := by
            simp [try_scrape_stats_from_dom, hm1, hm2, hm3, hm4]
          refine ⟨Or.inr htry,
            ⟨fun _ => Or.inr (Or.inr (Or.inr hf4)), fun _ => htry⟩, ?_,
            hfetchS, hfetchN⟩
          intro r hr
          rw [htry] at hr
          exact absurd hr (by simp)
        · have htry : try_scrape_stats_from_dom page
              = .ok (some ⟨v1, v2, v3, v4⟩) := by
            simp [try_scrape_stats_from_dom, hm1, hm2, hm3, hm4]
          refine ⟨Or.inl ⟨_, htry⟩, ⟨?_, ?_⟩, ?_, hfetchS, hfetchN⟩
          · intro h
            rw [htry] at h
            exact absurd h (by simp)
          · intro hdis
            exfalso
            rcases hdis with h | h | h | h
            · exact Option.noConfusion
                (hft1.symm.trans ((firstText_none_iff page diggSelectors).mpr h))
            · exact Option.noConfusion
                (hft2.symm.trans ((firstText_none_iff page commentSelectors).mpr h))
            · exact Option.noConfusion
                (hft3.symm.trans ((firstText_none_iff page shareSelectors).mpr h))
            · exact Option.noConfusion
                (hft4.symm.trans ((firstText_none_iff page collectSelectors).mpr h))
          · intro r hr
            rw [htry] at hr
            have heq : (⟨v1, v2, v3, v4⟩ : StatsRec) = r := by
              simpa using hr
            rw [← heq]
            exact ⟨⟨t1, hft1, hpv1⟩, ⟨t2, hft2, hpv2⟩, ⟨t3, hft3, hpv3⟩,
              ⟨t4, hft4, hpv4⟩⟩

/-- C10 counterexample: the scraper is not total, so it does not always
return None or a full mapping — a matched element whose text is "infw"
makes the decoder raise an uncaught OverflowError (only
NoSuchElementException is caught around it), aborting the call. -/
theorem dom_scraper_raises_counterexample :
    try_scrape_stats_from_dom
      (fun css => if css == "[data-e2e=\"like-count\"]" then some "infw" else none)
      = .error () := rfl

/-- C10 witness: the amended theorem's fallback clause applied to a page
serving all four metrics, one of them in suffix notation. -/
theorem dom_scraper_all_or_nothing_witness :
    fetch_stats_core
      (fun css => if css == "[data-e2e=\"like-count\"]" then some "1.2万"
        else if css == "[data-e2e=\"comment-count\"]" then some "2"
        else if css == "[data-e2e=\"share-count\"]" then some "3"
        else if css == "[data-e2e=\"favorite-count\"]" then some "4" else none)
      none = .ok (some ⟨12000, 2, 3, 4⟩) := by
  have h := dom_scraper_all_or_nothing
    (fun css => if css == "[data-e2e=\"like-count\"]" then some "1.2万"
      else if css == "[data-e2e=\"comment-count\"]" then some "2"
      else if css == "[data-e2e=\"share-count\"]" then some "3"
      else if css == "[data-e2e=\"favorite-count\"]" then some "4" else none)
    (by
      intro css t h
      dsimp only at h
      repeat' split at h
      all_goals first
        | (simp only [Option.some_inj] at h; rw [← h]; decide)
        | (exact absurd h (by simp)))
  exact h.2.2.2.1 none ⟨12000, 2, 3, 4⟩ rfl
